import Mathlib

/-!
Verification development for the hudson-news-bot deduplication and
scrape-caching subsystem.

Strings are modelled as `List Char`.  Python's `str.lower` is modelled by its
ASCII case mapping (`pyToLower`); SHA-256 digests and Python's builtin `hash`
are modelled as injective fingerprint functions, since every property below
depends only on equality of digests, which under the collision-free
abstraction coincides with equality of inputs.  Timestamps are modelled as
natural numbers (the stored ISO strings compare chronologically).
-/

/-- One character of Python `str.lower`, ASCII case mapping. -/
def pyToLower (c : Char) : Char :=
  if 65 ≤ c.toNat ∧ c.toNat ≤ 90 then Char.ofNat (c.toNat + 32) else c

/-- Python `str.lower` on a whole string. -/
def pyLower (s : List Char) : List Char := s.map pyToLower

/-- Python whitespace, as recognised by `str.split()` / `str.strip()`. -/
def pyIsSpace (c : Char) : Bool :=
  c = ' ' || c = '\t' || c = '\n' || c = '\r' || c = '\x0b' || c = '\x0c'

/-- Python `str.strip()`: remove leading and trailing whitespace. -/
def pyStrip (s : List Char) : List Char :=
  (((s.dropWhile pyIsSpace).reverse).dropWhile pyIsSpace).reverse

/-- Python `str.rstrip("/")`: remove trailing slashes. -/
def rstripSlash (s : List Char) : List Char :=
  (s.reverse.dropWhile (fun c => c = '/')).reverse

/-- Accumulator worker for `splitWs`; the accumulator holds the current word
reversed. -/
def splitWsAux : List Char → List Char → List (List Char)
  | [], acc => if acc.isEmpty then [] else [acc.reverse]
  | c :: cs, acc =>
      if pyIsSpace c then
        if acc.isEmpty then splitWsAux cs [] else acc.reverse :: splitWsAux cs []
      else splitWsAux cs (c :: acc)

/-- Python `str.split()` with no argument: split on runs of whitespace,
dropping empty pieces. -/
def splitWs (s : List Char) : List (List Char) := splitWsAux s []

/-- Python `sep.join(parts)`. -/
def joinSep (sep : List Char) : List (List Char) → List Char
  | [] => []
  | [p] => p
  | p :: q :: r => p ++ sep ++ joinSep sep (q :: r)

/-- Python `" ".join(s.split())`: collapse internal whitespace. -/
def collapseWs (s : List Char) : List Char := joinSep [' '] (splitWs s)

/-- Python `str.split(sep)` for a one-character separator (keeps empty
pieces; splitting the empty string yields one empty piece). -/
def splitSep (sep : Char) : List Char → List (List Char)
  | [] => [[]]
  | c :: t =>
      if c = sep then [] :: splitSep sep t
      else
        match splitSep sep t with
        | [] => [[c]]
        | h :: r => (c :: h) :: r

/-- Python `needle in hay` for strings: contiguous-substring test. -/
def isSubOf (needle : List Char) : List Char → Bool
  | [] => needle.isEmpty
  | c :: t => needle.isPrefixOf (c :: t) || isSubOf needle t

/-- Split at the first occurrence of a character: the part before it, and
`some` rest after it when the character occurs. -/
def splitAtFirst (c : Char) (s : List Char) : List Char × Option (List Char) :=
  match s.dropWhile (fun d => d ≠ c) with
  | [] => (s.takeWhile (fun d => d ≠ c), none)
  | _ :: t => (s.takeWhile (fun d => d ≠ c), some t)

/-- SHA-256 hex digest (`DuplicationChecker._hash_string`,
`WebsiteScraper._hash_string`), modelled as an injective function. -/
def hashString (s : List Char) : List Char := s

/-! ## `WebsiteScraper._normalize_url` (news/scraper.py) -/

/-- The tracking-parameter test from `WebsiteScraper._normalize_url`: a query
parameter is dropped when it starts with `utm_`, `fbclid` or `gclid`, or
contains `ref=` or `source=`. -/
def isTrackingParam (p : List Char) : Bool :=
  (("utm_".toList).isPrefixOf p || ("fbclid".toList).isPrefixOf p ||
    ("gclid".toList).isPrefixOf p) ||
  (isSubOf ("ref=".toList) p || isSubOf ("source=".toList) p)

/-- `WebsiteScraper._normalize_url`: lowercase, strip trailing slashes, drop
the fragment, and drop tracking query parameters. -/
def scraperNormalizeUrl (url : List Char) : List Char :=
  let u := pyLower (rstripSlash url)
  let u := u.takeWhile (fun c => c ≠ '#')
  let base := u.takeWhile (fun c => c ≠ '?')
  match u.dropWhile (fun c => c ≠ '?') with
  | [] => pyLower u
  | _ :: ps =>
      let essential := (splitSep '&' (pyLower ps)).filter (fun p => !isTrackingParam p)
      if essential.isEmpty then pyLower base
      else pyLower (base ++ '?' :: joinSep ['&'] essential)

/-! ## `DuplicationChecker._normalize_title` (reddit/deduplicator.py) -/

/-- The prefixes removed by `DuplicationChecker._normalize_title`. -/
def titlePrefixList : List (List Char) :=
  ["breaking:".toList, "update:".toList, "news:".toList, "report:".toList]

/-- The suffixes removed by `DuplicationChecker._normalize_title`. -/
def titleSuffixList : List (List Char) :=
  ["- cnn".toList, "| reuters".toList, "| ap news".toList, "- bbc".toList,
   "- updated".toList, "- update".toList, "(updated)".toList, "(update)".toList]

/-- One step of the prefix-removal loop of `_normalize_title`. -/
def dropOnePre (s p : List Char) : List Char :=
  if p.isPrefixOf s then pyStrip (s.drop p.length) else s

/-- One step of the suffix-removal loop of `_normalize_title`. -/
def dropOneSuf (s p : List Char) : List Char :=
  if p.isSuffixOf s then pyStrip (s.take (s.length - p.length)) else s

/-- `DuplicationChecker._normalize_title`: lowercase, collapse whitespace,
then strip each listed prefix and suffix once, in order. -/
def normalizeTitle (title : List Char) : List Char :=
  let n := collapseWs (pyLower title)
  let n := titlePrefixList.foldl dropOnePre n
  titleSuffixList.foldl dropOneSuf n

/-! ## `DuplicationChecker._normalize_url` (reddit/deduplicator.py)

A model of the `urllib.parse`-based normalization, restricted to URLs whose
query strings contain no percent-escapes and no `+` signs, so that
`quote_plus`/`unquote_plus` are the identity. -/

/-- Characters allowed in a URL scheme (`urllib.parse.scheme_chars`). -/
def isSchemeChar (c : Char) : Bool :=
  c.isAlpha || c.isDigit || c = '+' || c = '-' || c = '.'

/-- The scheme-splitting step of `urllib.parse.urlsplit`. -/
def pySplitScheme (url : List Char) : List Char × List Char :=
  match splitAtFirst ':' url with
  | (pre, some post) =>
      if !pre.isEmpty && (match pre with | c :: _ => c.isAlpha | [] => false)
          && pre.all isSchemeChar
      then (pyLower pre, post) else ([], url)
  | (_, none) => ([], url)

/-- A character ending the netloc portion of a URL. -/
def netlocEnd (c : Char) : Bool := c = '/' || c = '?' || c = '#'

/-- The params-splitting step of `urllib.parse.urlparse` (`_splitparams`):
split at the first `;` occurring in the last path segment. -/
def pySplitParams (p : List Char) : List Char × List Char :=
  if p.contains '/' then
    let seg := (p.reverse.takeWhile (fun c => c ≠ '/')).reverse
    let front := (p.reverse.dropWhile (fun c => c ≠ '/')).reverse
    match splitAtFirst ';' seg with
    | (a, some b) => (front ++ a, b)
    | (_, none) => (p, [])
  else
    match splitAtFirst ';' p with
    | (a, some b) => (a, b)
    | (_, none) => (p, [])

/-- The result of `urllib.parse.urlparse`. -/
structure ParsedUrl where
  scheme : List Char
  netloc : List Char
  path : List Char
  params : List Char
  query : List Char
  fragment : List Char
deriving DecidableEq

/-- `urllib.parse.urlparse`: scheme, then netloc (after `//`, up to the first
`/?#`), then fragment, then query, then params. -/
def pyUrlparse (url : List Char) : ParsedUrl :=
  let sr := pySplitScheme url
  let nr :=
    match sr.2 with
    | '/' :: '/' :: r =>
        (r.takeWhile (fun c => !netlocEnd c), r.dropWhile (fun c => !netlocEnd c))
    | r => ([], r)
  let fr :=
    match splitAtFirst '#' nr.2 with
    | (a, some b) => (a, b)
    | (a, none) => (a, [])
  let qr :=
    match splitAtFirst '?' fr.1 with
    | (a, some b) => (a, b)
    | (a, none) => (a, [])
  let pp := pySplitParams qr.1
  ⟨sr.1, nr.1, pp.1, pp.2, qr.2, fr.2⟩

/-- `urllib.parse.parse_qsl` restricted to escape-free queries: split on `&`,
drop empty pieces, pieces without `=`, and pieces with an empty value. -/
def pyParseQsl (qs : List Char) : List (List Char × List Char) :=
  (splitSep '&' qs).foldr
    (fun pair acc =>
      if pair.isEmpty then acc
      else
        match splitAtFirst '=' pair with
        | (_, none) => acc
        | (n, some v) => if v.isEmpty then acc else (n, v) :: acc)
    []

/-- `urllib.parse.parse_qs` restricted to escape-free queries: group values
by key, keys in order of first occurrence. -/
def pyParseQs (qs : List Char) : List (List Char × List (List Char)) :=
  let pairs := pyParseQsl qs
  ((pairs.map Prod.fst).eraseDups).map
    (fun k => (k, (pairs.filter (fun p => p.1 == k)).map Prod.snd))

/-- `urllib.parse.urlencode(..., doseq=True)` restricted to values needing no
quoting. -/
def pyUrlencode (d : List (List Char × List (List Char))) : List Char :=
  joinSep ['&'] ((d.map (fun kv => kv.2.map (fun v => kv.1 ++ '=' :: v))).flatten)

/-- `urllib.parse.urlunparse`. -/
def pyUrlunparse (p : ParsedUrl) : List Char :=
  let u := if p.params.isEmpty then p.path else p.path ++ ';' :: p.params
  let u :=
    if !p.netloc.isEmpty || (!u.isEmpty && u.take 2 = "//".toList) then
      '/' :: '/' :: p.netloc ++ (if !u.isEmpty && u.take 1 ≠ ['/'] then '/' :: u else u)
    else u
  let u := if !p.scheme.isEmpty then p.scheme ++ ':' :: u else u
  let u := if !p.query.isEmpty then u ++ '?' :: p.query else u
  if !p.fragment.isEmpty then u ++ '#' :: p.fragment else u

/-- The tracking-key test from `DuplicationChecker._normalize_url`:
`k.lower().startswith(("utm_", "fb_", "gclid", "ref_", "campaign"))`. -/
def dedupTrackingKey (k : List Char) : Bool :=
  ("utm_".toList).isPrefixOf (pyLower k) || ("fb_".toList).isPrefixOf (pyLower k) ||
  ("gclid".toList).isPrefixOf (pyLower k) || ("ref_".toList).isPrefixOf (pyLower k) ||
  ("campaign".toList).isPrefixOf (pyLower k)

/-- `DuplicationChecker._normalize_url`: parse, drop tracking query keys,
lowercase and de-`www.` the host, strip the path's trailing slash, drop the
fragment, and rebuild. -/
def dedupNormalizeUrl (url : List Char) : List Char :=
  let parsed := pyUrlparse url
  let filtered := (pyParseQs parsed.query).filter (fun kv => !dedupTrackingKey kv.1)
  let newQuery := pyUrlencode filtered
  let domain := pyLower parsed.netloc
  let domain := if ("www.".toList).isPrefixOf domain then domain.drop 4 else domain
  let path := rstripSlash parsed.path
  let path := if path.isEmpty then ['/'] else path
  pyUrlunparse ⟨pyLower parsed.scheme, domain, path, parsed.params, newQuery, []⟩

example : normalizeTitle ("Breaking:  Major  News".toList) = "major news".toList := by decide
example : normalizeTitle ("breaking: breaking: story".toList) = "breaking: story".toList := by decide
example : scraperNormalizeUrl ("https://E.com/a/#x".toList) = "https://e.com/a/".toList := by decide
example : scraperNormalizeUrl ("https://e.com/a?utm_source=x&id=1".toList) = "https://e.com/a?id=1".toList := by decide
example : scraperNormalizeUrl ("https://e.com/a?fbclid=x&id=1".toList) = "https://e.com/a?id=1".toList := by decide
example : dedupNormalizeUrl ("https://WWW.Example.com/Art/?utm_x=1&id=2#frag".toList) = "https://example.com/Art?id=2".toList := by decide
example : dedupNormalizeUrl ("https://example.com/a?fbclid=x&id=1".toList) = "https://example.com/a?fbclid=x&id=1".toList := by decide
example : dedupNormalizeUrl ("https://example.com/a?id=1".toList) = "https://example.com/a?id=1".toList := by decide
example : dedupNormalizeUrl ("https://example.com".toList) = "https://example.com/".toList := by decide
example : dedupNormalizeUrl ("https://example.com/a?a=1&b=2&a=3".toList) = "https://example.com/a?a=1&a=3&b=2".toList := by decide

/-! ## Data model of the two stores -/

/-- A candidate news article (`news/models.py NewsItem`); only the fields the
deduplication subsystem reads are modelled. -/
structure NewsItem where
  headline : List Char
  link : List Char
deriving DecidableEq

/-- A row of the `submitted_urls` table (reddit/deduplicator.py). -/
structure SubmittedRow where
  url : List Char
  urlHash : List Char
  normalizedUrl : List Char
  title : List Char
  titleHash : List Char
  submissionId : Option (List Char)
  submittedAt : Nat
  source : List Char
deriving DecidableEq

/-- A row of the `scraped_articles` table (news/scraper.py); `url_hash` has a
UNIQUE constraint. -/
structure ScrapedRow where
  url : List Char
  urlHash : List Char
  normalizedUrl : List Char
  headline : Option (List Char)
  contentHash : Option (List Char)
  scrapedAt : Nat
  success : Bool
deriving DecidableEq

/-! ## Submission-history store and decision engine
(`DuplicationChecker`, reddit/deduplicator.py) -/

/-- Python string interpolation of an `Optional[str]`: `None` renders as the
text `None`. -/
def pyShowOptId : Option (List Char) → List Char
  | none => "None".toList
  | some s => s

/-- Python string interpolation of a timestamp; modelled injectively. -/
def pyShowNat (n : Nat) : List Char := (toString n).toList

/-- The reason string for a local URL match in `_check_local_database`. -/
def urlReason (sid : Option (List Char)) (date : Nat) : List Char :=
  "URL already submitted (ID: ".toList ++ pyShowOptId sid ++
    ", Date: ".toList ++ pyShowNat date ++ [')']

/-- The reason string for a local title match in `_check_local_database`. -/
def titleReason (sid : Option (List Char)) (date : Nat) : List Char :=
  "Similar title already submitted (ID: ".toList ++ pyShowOptId sid ++
    ", Date: ".toList ++ pyShowNat date ++ [')']

/-- `DuplicationChecker._check_local_database`: exact `url_hash` match first,
then exact `title_hash` match. -/
def checkLocalDatabase (db : List SubmittedRow) (item : NewsItem) :
    Bool × Option (List Char) :=
  let urlHash := hashString (dedupNormalizeUrl item.link)
  let titleHash := hashString (normalizeTitle item.headline)
  match db.find? (fun r => r.urlHash == urlHash) with
  | some r => (true, some (urlReason r.submissionId r.submittedAt))
  | none =>
      match db.find? (fun r => r.titleHash == titleHash) with
      | some r => (true, some (titleReason r.submissionId r.submittedAt))
      | none => (false, none)

/-- The row inserted by `DuplicationChecker._store_submission`. -/
def mkSubmittedRow (item : NewsItem) (sid : Option (List Char)) (now : Nat)
    (src : List Char) : SubmittedRow :=
  { url := item.link
    urlHash := hashString (dedupNormalizeUrl item.link)
    normalizedUrl := dedupNormalizeUrl item.link
    title := item.headline
    titleHash := hashString (normalizeTitle item.headline)
    submissionId := sid
    submittedAt := now
    source := src }

/-- `DuplicationChecker._store_submission`: plain `INSERT` (append-only). -/
def storeSubmission (db : List SubmittedRow) (item : NewsItem)
    (sid : Option (List Char)) (now : Nat) (src : List Char) : List SubmittedRow :=
  db ++ [mkSubmittedRow item sid now src]

/-- `DuplicationChecker._urls_are_similar`. -/
def urlsAreSimilar (u1 u2 : List Char) : Bool :=
  dedupNormalizeUrl u1 == dedupNormalizeUrl u2

/-- `DuplicationChecker._titles_are_similar`.  The Python float comparison
`len(shorter) / len(longer) > 0.8` is modelled exactly over the rationals as
`5 * len(shorter) > 4 * len(longer)`. -/
def titlesAreSimilar (t1 t2 : List Char) : Bool :=
  let n1 := normalizeTitle t1
  let n2 := normalizeTitle t2
  if n1 == n2 then true
  else if n1.length > 20 && n2.length > 20 then
    let sl := if n1.length < n2.length then (n1, n2) else (n2, n1)
    isSubOf sl.1 sl.2 && decide (5 * sl.1.length > 4 * sl.2.length)
  else false

/-! ## Remote-duplicate prober
(`DuplicationChecker._check_reddit_submissions`) -/

/-- An entry of a Reddit post's duplicates relation; only the fields the
prober reads are modelled. -/
structure DupEntry where
  id : List Char
  url : List Char
deriving DecidableEq

/-- A Reddit search result.  `dups` models the call
`submission.duplicates()`: it either raises (`Except.error`) or yields the
listed entries. -/
structure RedditPost where
  id : List Char
  url : List Char
  title : List Char
  dups : Except (List Char) (List DupEntry)

/-- Reason string for a URL match on a search result. -/
def similarUrlReason (p : RedditPost) : List Char :=
  "Similar URL found: ".toList ++ p.url ++ " (ID: ".toList ++ p.id ++ [')']

/-- Reason string for a title match on a search result. -/
def similarTitleReason (p : RedditPost) : List Char :=
  "Similar title found: ".toList ++ p.title ++ " (ID: ".toList ++ p.id ++ [')']

/-- Reason string for a match found through the duplicates relation. -/
def dupReason (d : DupEntry) : List Char :=
  "Duplicate URL found via Reddit API: ".toList ++ d.url ++
    " (ID: ".toList ++ d.id ++ [')']

/-- The body of the inner loop of `_check_reddit_submissions` for one search
result: URL similarity, then title similarity, then the duplicates walk.  An
exception from the duplicates walk is caught, logged and skipped, so it
yields no match for this post. -/
def checkOnePost (item : NewsItem) (p : RedditPost) : Option (List Char) :=
  if urlsAreSimilar item.link p.url then some (similarUrlReason p)
  else if titlesAreSimilar item.headline p.title then some (similarTitleReason p)
  else
    match p.dups with
    | .error _ => none
    | .ok ds => (ds.find? (fun d => urlsAreSimilar item.link d.url)).map dupReason

/-- First match over the search results of one query. -/
def firstHit (item : NewsItem) : List RedditPost → Option (List Char)
  | [] => none
  | p :: ps =>
      match checkOnePost item p with
      | some r => some r
      | none => firstHit item ps

/-- The two search queries built by `_check_reddit_submissions`: a
site-restricted query from the candidate's domain, and the first 50
characters of the headline. -/
def searchQueriesFor (item : NewsItem) : List (List Char) :=
  ["site:".toList ++ (pyUrlparse item.link).netloc, item.headline.take 50]

/-- The query loop of `_check_reddit_submissions`.  `search` models
`reddit_client.search_submissions` (already bounded by
`max_search_results`); a search failure is not caught and propagates. -/
def checkQueryList (search : List Char → Except (List Char) (List RedditPost))
    (item : NewsItem) : List (List Char) → Except (List Char) (Bool × Option (List Char))
  | [] => .ok (false, none)
  | q :: qs => do
      let posts ← search q
      match firstHit item posts with
      | some r => .ok (true, some r)
      | none => checkQueryList search item qs

/-- `DuplicationChecker._check_reddit_submissions`. -/
def checkRedditSubmissions (search : List Char → Except (List Char) (List RedditPost))
    (item : NewsItem) : Except (List Char) (Bool × Option (List Char)) :=
  checkQueryList search item (searchQueriesFor item)

/-- `DuplicationChecker.is_duplicate`.  The returned quadruple is
(verdict, reason, submitted-urls table afterwards, whether the remote prober
was invoked); the last two components record the side effects of the call. -/
def isDuplicate (checkForDuplicates : Bool)
    (search : List Char → Except (List Char) (List RedditPost))
    (db : List SubmittedRow) (item : NewsItem) (now : Nat) :
    Except (List Char) (Bool × Option (List Char) × List SubmittedRow × Bool) :=
  if !checkForDuplicates then .ok (false, none, db, false)
  else
    match checkLocalDatabase db item with
    | (true, reason) => .ok (true, reason, db, false)
    | (false, _) => do
        let rr ← checkRedditSubmissions search item
        if rr.1 then
          .ok (true, rr.2, storeSubmission db item none now ("reddit".toList), true)
        else .ok (false, none, db, true)

/-! ## Scrape-history store and cache (`WebsiteScraper`, news/scraper.py) -/

/-- The content fingerprint computed by `_store_scraped_article` and the
pass-2 content key of `scrape_news_sites`: first 500 characters, lowercased
and stripped (Python's builtin `hash` is modelled injectively). -/
def contentFp (c : List Char) : List Char := pyStrip (pyLower (c.take 500))

/-- The row written by `WebsiteScraper._store_scraped_article`. -/
def mkScrapedRow (url : List Char) (headline content : Option (List Char))
    (now : Nat) (success : Bool) : ScrapedRow :=
  let norm := scraperNormalizeUrl url
  { url := url
    urlHash := hashString norm
    normalizedUrl := norm
    headline := headline
    contentHash :=
      match content with
      | none => none
      | some c => if c.isEmpty then none else some (hashString (contentFp c))
    scrapedAt := now
    success := success }

/-- `WebsiteScraper._store_scraped_article`: `INSERT OR REPLACE` keyed by the
UNIQUE `url_hash` column — any row with the same hash is replaced. -/
def storeScrapedArticle (db : List ScrapedRow) (url : List Char)
    (headline content : Option (List Char)) (success : Bool) (now : Nat) :
    List ScrapedRow :=
  let r := mkScrapedRow url headline content now success
  (db.filter (fun x => !(x.urlHash == r.urlHash))) ++ [r]

/-- `WebsiteScraper._check_if_recently_scraped`.  `readStore` models the
database read (connect + query), which the code performs with no exception
handler, so a read failure propagates; when the `skip_recently_scraped` flag
is off the store is never touched.  Timestamps and the cache window are in
the same abstract time unit. -/
def checkIfRecentlyScraped (skipRecentlyScraped : Bool)
    (readStore : Except (List Char) (List ScrapedRow)) (url : List Char)
    (now window : Nat) : Except (List Char) Bool :=
  if !skipRecentlyScraped then .ok false
  else do
    let db ← readStore
    let urlHash := hashString (scraperNormalizeUrl url)
    let cutoff := now - window
    .ok ((db.find? (fun r => r.urlHash == urlHash && decide (cutoff < r.scrapedAt))).isSome)

/-- `WebsiteScraper._is_news_site_url`: the URL's canonical form equals the
canonical form of a configured seed news site. -/
def isNewsSiteUrl (newsSites : List (List Char)) (url : List Char) : Bool :=
  let norm := scraperNormalizeUrl url
  newsSites.any (fun s => scraperNormalizeUrl s == norm)

/-- The cache gate at the top of `WebsiteScraper.fetch_website`: the fetch is
skipped exactly when `not force and not is_news_site and
self._check_if_recently_scraped(url)` (left to right, short-circuiting). -/
def fetchSkipsForCache (newsSites : List (List Char)) (force skipFlag : Bool)
    (readStore : Except (List Char) (List ScrapedRow)) (url : List Char)
    (now window : Nat) : Except (List Char) Bool :=
  if !force && !isNewsSiteUrl newsSites url then
    checkIfRecentlyScraped skipFlag readStore url now window
  else .ok false

/-! ## Intra-batch content-level deduplication
(pass 2 of `WebsiteScraper.scrape_news_sites`) -/

/-- A successfully extracted article (headline and content both present). -/
structure ExtractedArticle where
  url : List Char
  headline : List Char
  content : List Char
deriving DecidableEq

/-- The pass-2 batch key for headlines:
`article_data["headline"].lower().strip()`. -/
def headlineKey (h : List Char) : List Char := pyStrip (pyLower h)

/-- One article of the pass-2 loop of `scrape_news_sites`: drop on a seen
headline key, else drop on a seen content fingerprint, else accept and
record both. -/
def pass2Step (acc : List (List Char) × List (List Char) × List ExtractedArticle)
    (a : ExtractedArticle) :
    List (List Char) × List (List Char) × List ExtractedArticle :=
  let hl := headlineKey a.headline
  if acc.1.contains hl then acc
  else
    let fp := contentFp a.content
    if acc.2.1.contains fp then acc
    else (hl :: acc.1, fp :: acc.2.1, acc.2.2 ++ [a])

/-- The pass-2 content-level deduplication of `scrape_news_sites` over a
batch of successfully extracted articles. -/
def pass2 (articles : List ExtractedArticle) : List ExtractedArticle :=
  (articles.foldl pass2Step ([], [], [])).2.2

/-- The pass-2 loop as the claim states it, with the batch headline key being
the canonical title per `canonicalizeTitle` (spec §4.6: "compute
canonicalTitle; if already seen in the batch set, drop"). -/
def pass2ClaimStep (acc : List (List Char) × List (List Char) × List ExtractedArticle)
    (a : ExtractedArticle) :
    List (List Char) × List (List Char) × List ExtractedArticle :=
  let hl := normalizeTitle a.headline
  if acc.1.contains hl then acc
  else
    let fp := contentFp a.content
    if acc.2.1.contains fp then acc
    else (hl :: acc.1, fp :: acc.2.1, acc.2.2 ++ [a])

/-- Pass 2 as described by the claim (canonical-title batch keys). -/
def pass2Claim (articles : List ExtractedArticle) : List ExtractedArticle :=
  (articles.foldl pass2ClaimStep ([], [], [])).2.2

/-! ## Helper lemmas about the string primitives -/

theorem char_toNat_ofNat_valid (n : Nat) (h : n < 55296) : (Char.ofNat n).toNat = n := by
  unfold Char.ofNat
  simp only [Nat.isValidChar, h, Char.ofNatAux, Char.toNat, dif_pos, true_or]
  rfl

theorem pyToLower_toNat_of_upper (c : Char) (h : 65 ≤ c.toNat ∧ c.toNat ≤ 90) :
    (pyToLower c).toNat = c.toNat + 32 := by
  unfold pyToLower
  rw [if_pos h]
  exact char_toNat_ofNat_valid _ (by omega)

theorem pyToLower_eq_self (c : Char) (h : ¬(65 ≤ c.toNat ∧ c.toNat ≤ 90)) :
    pyToLower c = c := by
  rw [pyToLower, if_neg h]

theorem pyToLower_idem (c : Char) : pyToLower (pyToLower c) = pyToLower c := by
  by_cases h : 65 ≤ c.toNat ∧ c.toNat ≤ 90
  · exact pyToLower_eq_self _ (by have := pyToLower_toNat_of_upper c h; omega)
  · rw [pyToLower_eq_self c h]
    exact pyToLower_eq_self c h

/-- `pyToLower` hits a character that is neither an upper- nor a lower-case
ASCII letter exactly when its argument is that character. -/
theorem pyToLower_eq_iff (c x : Char) (hx1 : ¬(65 ≤ x.toNat ∧ x.toNat ≤ 90))
    (hx2 : ¬(97 ≤ x.toNat ∧ x.toNat ≤ 122)) : pyToLower c = x ↔ c = x := by
  constructor
  · intro h
    by_cases hc : 65 ≤ c.toNat ∧ c.toNat ≤ 90
    · exfalso
      have := pyToLower_toNat_of_upper c hc
      rw [h] at this
      omega
    · rwa [pyToLower, if_neg hc] at h
  · intro h
    subst h
    rw [pyToLower, if_neg hx1]

theorem pyLower_idem (s : List Char) : pyLower (pyLower s) = pyLower s := by
  unfold pyLower
  rw [List.map_map]
  exact List.map_congr_left (fun c _ => pyToLower_idem c)

theorem pyLower_append (s t : List Char) : pyLower (s ++ t) = pyLower s ++ pyLower t :=
  List.map_append _ s t

theorem pyLower_cons (c : Char) (s : List Char) :
    pyLower (c :: s) = pyToLower c :: pyLower s := rfl

/-- A character that is not an ASCII letter in either case is in the
lowered string exactly when it is in the original. -/
theorem mem_pyLower_iff (s : List Char) (x : Char)
    (hx1 : ¬(65 ≤ x.toNat ∧ x.toNat ≤ 90)) (hx2 : ¬(97 ≤ x.toNat ∧ x.toNat ≤ 122)) :
    x ∈ pyLower s ↔ x ∈ s := by
  unfold pyLower
  rw [List.mem_map]
  constructor
  · rintro ⟨c, hc, hcx⟩
    rwa [(pyToLower_eq_iff c x hx1 hx2).mp hcx] at hc
  · intro h
    exact ⟨x, h, (pyToLower_eq_iff x x hx1 hx2).mpr rfl⟩

/-- A string made of `pyToLower` images is fixed by `pyLower`. -/
theorem pyLower_fixed_of_forall (s : List Char) (h : ∀ c ∈ s, pyToLower c = c) :
    pyLower s = s := by
  induction s with
  | nil => rfl
  | cons a t ih =>
      rw [pyLower_cons, h a (List.mem_cons_self a t),
        ih (fun c hc => h c (List.mem_cons_of_mem _ hc))]

theorem forall_pyToLower_of_fixed (s : List Char) (h : pyLower s = s) :
    ∀ c ∈ s, pyToLower c = c := by
  induction s with
  | nil => intro c hc; cases hc
  | cons a t ih =>
      rw [pyLower_cons, List.cons_eq_cons] at h
      intro c hc
      cases hc with
      | head => exact h.1
      | tail _ hm => exact ih h.2 c hm

theorem takeWhile_ne_eq_self {l : List Char} {x : Char} (h : x ∉ l) :
    l.takeWhile (fun c => c ≠ x) = l := by
  induction l with
  | nil => rfl
  | cons a t ih =>
      have ha : a ≠ x := fun hax => h (hax ▸ List.mem_cons_self a t)
      have ht : x ∉ t := fun hm => h (List.mem_cons_of_mem _ hm)
      rw [List.takeWhile_cons, if_pos (decide_eq_true ha), ih ht]

theorem dropWhile_ne_eq_nil {l : List Char} {x : Char} (h : x ∉ l) :
    l.dropWhile (fun c => c ≠ x) = [] := by
  induction l with
  | nil => rfl
  | cons a t ih =>
      have ha : a ≠ x := fun hax => h (hax ▸ List.mem_cons_self a t)
      have ht : x ∉ t := fun hm => h (List.mem_cons_of_mem _ hm)
      rw [List.dropWhile_cons, if_pos (decide_eq_true ha)]
      exact ih ht

theorem takeWhile_ne_append {l₁ l₂ : List Char} {x : Char} (h : x ∉ l₁) :
    (l₁ ++ x :: l₂).takeWhile (fun c => c ≠ x) = l₁ := by
  induction l₁ with
  | nil => rw [List.nil_append, List.takeWhile_cons, if_neg (by simp)]
  | cons a t ih =>
      have ha : a ≠ x := fun hax => h (hax ▸ List.mem_cons_self a t)
      have ht : x ∉ t := fun hm => h (List.mem_cons_of_mem _ hm)
      rw [List.cons_append, List.takeWhile_cons, if_pos (decide_eq_true ha), ih ht]

theorem dropWhile_ne_append {l₁ l₂ : List Char} {x : Char} (h : x ∉ l₁) :
    (l₁ ++ x :: l₂).dropWhile (fun c => c ≠ x) = x :: l₂ := by
  induction l₁ with
  | nil => rw [List.nil_append, List.dropWhile_cons, if_neg (by simp)]
  | cons a t ih =>
      have ha : a ≠ x := fun hax => h (hax ▸ List.mem_cons_self a t)
      have ht : x ∉ t := fun hm => h (List.mem_cons_of_mem _ hm)
      rw [List.cons_append, List.dropWhile_cons, if_pos (decide_eq_true ha)]
      exact ih ht

theorem dropWhile_head_false {p : Char → Bool} {l : List Char} :
    (l.dropWhile p).head? = none ∨ ∃ c t, l.dropWhile p = c :: t ∧ p c = false := by
  induction l with
  | nil => exact Or.inl rfl
  | cons a t ih =>
      rw [List.dropWhile_cons]
      by_cases h : p a = true
      · rw [if_pos h]; exact ih
      · rw [if_neg h]
        exact Or.inr ⟨a, t, rfl, Bool.eq_false_iff.mpr h⟩

theorem rstripSlash_getLast (s : List Char) : (rstripSlash s).getLast? ≠ some '/' := by
  unfold rstripSlash
  rw [List.getLast?_reverse]
  rcases dropWhile_head_false (p := fun c => decide (c = '/')) (l := s.reverse) with h | ⟨c, t, he, hc⟩
  · rw [h]; simp
  · rw [he]
    simp only [List.head?_cons, ne_eq, Option.some.injEq]
    intro hch
    rw [hch] at hc
    simp at hc

theorem rstripSlash_eq_self (s : List Char) (h : s.getLast? ≠ some '/') :
    rstripSlash s = s := by
  unfold rstripSlash
  rw [← List.head?_reverse] at h
  cases hrev : s.reverse with
  | nil =>
      have hs : s = [] := by
        have := congrArg List.reverse hrev
        rwa [List.reverse_reverse] at this
      rw [hs]
      rfl
  | cons c t =>
      rw [hrev] at h
      simp only [List.head?_cons, ne_eq, Option.some.injEq] at h
      rw [List.dropWhile_cons, if_neg (by simpa using h)]
      have := congrArg List.reverse hrev
      rw [List.reverse_reverse] at this
      exact this.symm

theorem mem_rstripSlash {s : List Char} {x : Char} (h : x ∈ rstripSlash s) : x ∈ s := by
  unfold rstripSlash at h
  rw [List.mem_reverse] at h
  exact List.mem_reverse.mp ((List.dropWhile_sublist _).subset h)

theorem pyLower_getLast_ne_slash (w : List Char) (h : w.getLast? ≠ some '/') :
    (pyLower w).getLast? ≠ some '/' := by
  rw [← List.head?_reverse] at h ⊢
  unfold pyLower
  rw [← List.map_reverse, List.head?_map]
  cases hh : w.reverse.head? with
  | none => simp
  | some c =>
      rw [hh] at h
      simp only [Option.map_some', ne_eq, Option.some.injEq]
      intro hc
      exact h (by rw [(pyToLower_eq_iff c '/' (by decide) (by decide)).mp hc])

/-- On a URL containing neither `#` nor `?`, `WebsiteScraper._normalize_url`
only strips trailing slashes and lowercases. -/
theorem scraperNormalizeUrl_plain (u : List Char) (h1 : '#' ∉ u) (h2 : '?' ∉ u) :
    scraperNormalizeUrl u = pyLower (rstripSlash u) := by
  have h1' : '#' ∉ pyLower (rstripSlash u) := fun hm =>
    h1 (mem_rstripSlash ((mem_pyLower_iff _ _ (by decide) (by decide)).mp hm))
  have h2' : '?' ∉ pyLower (rstripSlash u) := fun hm =>
    h2 (mem_rstripSlash ((mem_pyLower_iff _ _ (by decide) (by decide)).mp hm))
  simp only [scraperNormalizeUrl]
  rw [takeWhile_ne_eq_self h1', dropWhile_ne_eq_nil h2']
  exact pyLower_idem _

theorem scraperNormalizeUrl_idem_of_clean (u : List Char) (h1 : '#' ∉ u) (h2 : '?' ∉ u) :
    scraperNormalizeUrl (scraperNormalizeUrl u) = scraperNormalizeUrl u := by
  rw [scraperNormalizeUrl_plain u h1 h2]
  have h1' : '#' ∉ pyLower (rstripSlash u) := fun hm =>
    h1 (mem_rstripSlash ((mem_pyLower_iff _ _ (by decide) (by decide)).mp hm))
  have h2' : '?' ∉ pyLower (rstripSlash u) := fun hm =>
    h2 (mem_rstripSlash ((mem_pyLower_iff _ _ (by decide) (by decide)).mp hm))
  rw [scraperNormalizeUrl_plain _ h1' h2']
  rw [rstripSlash_eq_self _ (pyLower_getLast_ne_slash _ (rstripSlash_getLast u))]
  exact pyLower_idem _

/-! ## Structure of `splitWs` and whitespace-collapsed strings -/

theorem splitWs_nil : splitWs [] = [] := rfl

theorem splitWs_cons_space {c : Char} {cs : List Char} (hc : pyIsSpace c = true) :
    splitWs (c :: cs) = splitWs cs := by
  show splitWsAux (c :: cs) [] = splitWsAux cs []
  rw [splitWsAux, if_pos hc]
  rfl

theorem splitWsAux_spec (s : List Char) :
    ∀ acc : List Char, acc ≠ [] →
      splitWsAux s acc =
        (acc.reverse ++ s.takeWhile (fun d => !pyIsSpace d)) ::
          splitWs (s.dropWhile (fun d => !pyIsSpace d)) := by
  induction s with
  | nil =>
      intro acc hacc
      unfold splitWsAux
      rw [if_neg (by simpa [List.isEmpty_iff] using hacc)]
      simp [splitWs, splitWsAux]
  | cons c cs ih =>
      intro acc hacc
      by_cases hc : pyIsSpace c = true
      · show (if pyIsSpace c = true then _ else _) = _
        rw [if_pos hc, if_neg (by simpa [List.isEmpty_iff] using hacc)]
        rw [List.takeWhile_cons, List.dropWhile_cons]
        rw [if_neg (by simp [hc]), if_neg (by simp [hc])]
        rw [splitWs_cons_space hc]
        simp [splitWs]
      · show (if pyIsSpace c = true then _ else _) = _
        rw [if_neg hc]
        rw [ih (c :: acc) (by simp)]
        rw [List.takeWhile_cons, List.dropWhile_cons]
        rw [if_pos (by simp [hc]), if_pos (by simp [hc])]
        simp

theorem splitWs_cons_nonspace {c : Char} {cs : List Char} (hc : pyIsSpace c = false) :
    splitWs (c :: cs) =
      (c :: cs.takeWhile (fun d => !pyIsSpace d)) ::
        splitWs (cs.dropWhile (fun d => !pyIsSpace d)) := by
  show splitWsAux (c :: cs) [] = _
  unfold splitWsAux
  rw [if_neg (by simp [hc])]
  rw [splitWsAux_spec cs [c] (by simp)]
  rfl

theorem splitWs_pieces : ∀ s : List Char, ∀ p ∈ splitWs s,
    p ≠ [] ∧ (∀ c ∈ p, pyIsSpace c = false) ∧ (∀ c ∈ p, c ∈ s)
  | [] => by simp [splitWs, splitWsAux]
  | c :: cs => by
      by_cases hc : pyIsSpace c = true
      · rw [splitWs_cons_space hc]
        intro p hp
        obtain ⟨hne, hsp, hmem⟩ := splitWs_pieces cs p hp
        exact ⟨hne, hsp, fun d hd => List.mem_cons_of_mem _ (hmem d hd)⟩
      · rw [splitWs_cons_nonspace (Bool.eq_false_iff.mpr hc)]
        intro p hp
        rcases List.mem_cons.mp hp with rfl | hmem
        · refine ⟨by simp, ?_, ?_⟩
          · intro d hd
            rcases List.mem_cons.mp hd with rfl | hdm
            · exact Bool.eq_false_iff.mpr hc
            · simpa using List.mem_takeWhile_imp hdm
          · intro d hd
            rcases List.mem_cons.mp hd with rfl | hdm
            · exact List.mem_cons_self _ _
            · exact List.mem_cons_of_mem _ ((List.takeWhile_sublist _).subset hdm)
        · obtain ⟨hne, hsp, hmm⟩ :=
            splitWs_pieces (cs.dropWhile (fun d => !pyIsSpace d)) p hmem
          exact ⟨hne, hsp, fun d hd =>
            List.mem_cons_of_mem _ ((List.dropWhile_sublist _).subset (hmm d hd))⟩
termination_by s => s.length
decreasing_by
  · simp only [List.length_cons]
    omega
  · simp only [List.length_cons]
    exact Nat.lt_succ_of_le (List.IsSuffix.length_le (List.dropWhile_suffix _))

theorem joinSep_ne_nil {sep : List Char} {p : List Char} {r : List (List Char)}
    (hp : p ≠ []) : joinSep sep (p :: r) ≠ [] := by
  cases r with
  | nil => simpa [joinSep] using hp
  | cons q r' =>
      show p ++ sep ++ joinSep sep (q :: r') ≠ []
      simp [hp]

theorem mem_joinSep {sep : List Char} {parts : List (List Char)} {c : Char}
    (h : c ∈ joinSep sep parts) : c ∈ sep ∨ ∃ p ∈ parts, c ∈ p := by
  induction parts with
  | nil => cases h
  | cons p r ih =>
      cases r with
      | nil =>
          simp only [joinSep] at h
          exact Or.inr ⟨p, List.mem_cons_self _ _, h⟩
      | cons q r' =>
          simp only [joinSep, List.append_assoc, List.mem_append] at h
          rcases h with hp | hsep | hrest
          · exact Or.inr ⟨p, List.mem_cons_self _ _, hp⟩
          · exact Or.inl hsep
          · rcases ih hrest with hs | ⟨w, hw, hcw⟩
            · exact Or.inl hs
            · exact Or.inr ⟨w, List.mem_cons_of_mem _ hw, hcw⟩

/-- A whitespace-collapsed string: every whitespace character is a plain
space, no two spaces are adjacent, and the string neither starts nor ends
with a space. -/
def SpaceTidy (s : List Char) : Prop :=
  (∀ c ∈ s, pyIsSpace c = true → c = ' ') ∧
  s.Chain' (fun a b => ¬(a = ' ' ∧ b = ' ')) ∧
  s.head? ≠ some ' ' ∧ s.getLast? ≠ some ' '

theorem chain'_of_no_space {l : List Char} (h : ∀ c ∈ l, pyIsSpace c = false) :
    l.Chain' (fun a b => ¬(a = ' ' ∧ b = ' ')) := by
  induction l with
  | nil => exact List.chain'_nil
  | cons a t ih =>
      rw [List.chain'_cons']
      refine ⟨?_, ih (fun c hc => h c (List.mem_cons_of_mem _ hc))⟩
      intro y _ hy
      have := h a (List.mem_cons_self _ _)
      rw [hy.1] at this
      simp [pyIsSpace] at this

theorem head_not_space {p : List Char} (h : ∀ c ∈ p, pyIsSpace c = false) :
    p.head? ≠ some ' ' := by
  cases p with
  | nil => simp
  | cons a t =>
      simp only [List.head?_cons, ne_eq, Option.some.injEq]
      intro ha
      have := h a (List.mem_cons_self _ _)
      rw [ha] at this
      simp [pyIsSpace] at this

theorem last_not_space {p : List Char} (h : ∀ c ∈ p, pyIsSpace c = false) :
    p.getLast? ≠ some ' ' := by
  cases hl : p.getLast? with
  | none => simp
  | some a =>
      simp only [ne_eq, Option.some.injEq]
      intro ha
      have hm : a ∈ p := List.mem_of_mem_getLast? hl
      have := h a hm
      rw [ha] at this
      simp [pyIsSpace] at this

theorem tidy_joinSep (parts : List (List Char))
    (h : ∀ p ∈ parts, p ≠ [] ∧ ∀ c ∈ p, pyIsSpace c = false) :
    SpaceTidy (joinSep [' '] parts) := by
  induction parts with
  | nil => exact ⟨by simp [joinSep], by simp [joinSep], by simp [joinSep], by simp [joinSep]⟩
  | cons p r ih =>
      obtain ⟨hpne, hpns⟩ := h p (List.mem_cons_self _ _)
      cases r with
      | nil =>
          refine ⟨?_, ?_, ?_, ?_⟩
          · intro c hc hsp
            exact absurd (hpns c hc) (by simp [hsp])
          · exact chain'_of_no_space hpns
          · exact head_not_space hpns
          · exact last_not_space hpns
      | cons q r' =>
          obtain ⟨htid1, htid2, htid3, htid4⟩ :=
            ih (fun w hw => h w (List.mem_cons_of_mem _ hw))
          obtain ⟨hqne, _⟩ := h q (List.mem_cons_of_mem _ (List.mem_cons_self _ _))
          have hjne : joinSep [' '] (q :: r') ≠ [] := joinSep_ne_nil hqne
          have hshape : joinSep [' '] (p :: q :: r') =
              p ++ ' ' :: joinSep [' '] (q :: r') := by
            show p ++ [' '] ++ joinSep [' '] (q :: r') = _
            simp
          rw [hshape]
          refine ⟨?_, ?_, ?_, ?_⟩
          · intro c hc hsp
            rcases List.mem_append.mp hc with hcp | hcj
            · exact absurd (hpns c hcp) (by simp [hsp])
            · rcases List.mem_cons.mp hcj with rfl | hcj'
              · rfl
              · exact htid1 c hcj' hsp
          · rw [List.chain'_append]
            refine ⟨chain'_of_no_space hpns, ?_, ?_⟩
            · rw [List.chain'_cons']
              refine ⟨?_, htid2⟩
              intro y hy hcontra
              exact htid3 (by rw [hy, hcontra.2])
            · intro x hx y hy hcontra
              have hxm : x ∈ p := List.mem_of_mem_getLast? hx
              have := hpns x hxm
              rw [hcontra.1] at this
              simp [pyIsSpace] at this
          · rw [List.head?_append]
            cases hp : p.head? with
            | none => exact absurd (List.head?_eq_none_iff.mp hp) hpne
            | some a =>
                have := head_not_space hpns
                rw [hp] at this
                simpa using this
          · rw [List.getLast?_append]
            cases hjc : joinSep [' '] (q :: r') with
            | nil => exact absurd hjc hjne
            | cons b j' =>
                rw [List.getLast?_cons_cons]
                rw [hjc] at htid4
                cases hj0 : (b :: j').getLast? with
                | none => simpa using last_not_space hpns
                | some x =>
                    simp only [Option.or_some, ne_eq, Option.some.injEq]
                    intro hx
                    exact htid4 (by rw [hj0, hx])

/-- A whitespace-collapsed ("tidy") string is a fixed point of
`" ".join(s.split())`. -/
theorem collapse_tidy : ∀ s : List Char, SpaceTidy s → collapseWs s = s
  | [] => fun _ => rfl
  | c :: cs => fun h => by
      obtain ⟨h1, h2, h3, h4⟩ := h
      have hc : pyIsSpace c = false := by
        cases hsp : pyIsSpace c
        · rfl
        · exact absurd (h1 c (List.mem_cons_self _ _) hsp)
            (fun hceq => h3 (by rw [List.head?_cons, hceq]))
      unfold collapseWs
      rw [splitWs_cons_nonspace hc]
      have hsplit := List.takeWhile_append_dropWhile (fun d => !pyIsSpace d) cs
      cases hrc : cs.dropWhile (fun d => !pyIsSpace d) with
      | nil =>
          rw [hrc, List.append_nil] at hsplit
          rw [splitWs_nil]
          show c :: cs.takeWhile (fun d => !pyIsSpace d) = c :: cs
          rw [hsplit]
      | cons d r' =>
          have hdsp : pyIsSpace d = true := by
            have hd := List.head?_dropWhile_not (fun d => !pyIsSpace d) cs
            rw [hrc] at hd
            simpa using hd
          rw [hrc] at hsplit
          have hdmem : d ∈ c :: cs := by
            rw [← hsplit]
            exact List.mem_cons_of_mem _ (by simp)
          have hdeq : d = ' ' := h1 d hdmem hdsp
          rw [hdeq] at hsplit
          cases hr' : r' with
          | nil =>
              rw [hr'] at hsplit
              exfalso
              apply h4
              have hrepr : c :: cs =
                  (c :: cs.takeWhile (fun d => !pyIsSpace d)) ++ [' '] := by
                rw [List.cons_append, hsplit]
              rw [hrepr, List.getLast?_concat]
          | cons e r'' =>
              rw [hr'] at hsplit
              have hchain : List.Chain' (fun a b => ¬(a = ' ' ∧ b = ' '))
                  (' ' :: e :: r'') := by
                have hrepr : c :: cs =
                    (c :: cs.takeWhile (fun d => !pyIsSpace d)) ++ ' ' :: e :: r'' := by
                  rw [List.cons_append, hsplit]
                rw [hrepr] at h2
                exact (List.chain'_append.mp h2).2.1
              have hene : e ≠ ' ' := fun hee =>
                (List.chain'_cons.mp hchain).1 ⟨rfl, hee⟩
              have hens : pyIsSpace e = false := by
                cases hsp : pyIsSpace e
                · rfl
                · refine absurd (h1 e ?_ hsp) hene
                  rw [← hsplit]
                  exact List.mem_cons_of_mem _
                    (List.mem_append_right _ (List.mem_cons_of_mem _ (List.mem_cons_self _ _)))
              have hsome : (e :: r'').getLast? = some ((e :: r'').getLast (by simp)) :=
                List.getLast?_eq_getLast _ (by simp)
              have hrepr2 : c :: cs =
                  ((c :: cs.takeWhile (fun d => !pyIsSpace d)) ++ [' ']) ++ e :: r'' := by
                rw [List.append_assoc, List.cons_append, List.singleton_append, hsplit]
              have hlastr : (e :: r'').getLast? = (c :: cs).getLast? := by
                rw [hrepr2, List.getLast?_append, hsome]
                rfl
              have htr : SpaceTidy (e :: r'') := by
                refine ⟨?_, (List.chain'_cons.mp hchain).2, ?_, ?_⟩
                · intro x hx hxs
                  refine h1 x ?_ hxs
                  rw [← hsplit]
                  exact List.mem_cons_of_mem _
                    (List.mem_append_right _ (List.mem_cons_of_mem _ hx))
                · simpa using hene
                · rw [hlastr]
                  exact h4
              have hlt : (e :: r'').length < (c :: cs).length := by
                have hl := congrArg List.length hsplit
                simp only [List.length_append, List.length_cons] at hl
                simp only [List.length_cons]
                omega
              have hrec := collapse_tidy (e :: r'') htr
              unfold collapseWs at hrec
              rw [splitWs_cons_nonspace hens] at hrec
              rw [hdeq, splitWs_cons_space (by decide), splitWs_cons_nonspace hens]
              have hjoin : joinSep [' ']
                  ((c :: cs.takeWhile (fun d => !pyIsSpace d)) ::
                    (e :: r''.takeWhile (fun d => !pyIsSpace d)) ::
                      splitWs (r''.dropWhile (fun d => !pyIsSpace d))) =
                  (c :: cs.takeWhile (fun d => !pyIsSpace d)) ++ [' '] ++
                    joinSep [' '] ((e :: r''.takeWhile (fun d => !pyIsSpace d)) ::
                      splitWs (r''.dropWhile (fun d => !pyIsSpace d))) := rfl
              rw [hjoin, hrec, List.append_assoc, List.cons_append,
                List.singleton_append, hsplit]
termination_by s => s.length
decreasing_by
  exact hlt

theorem pyStrip_isPre (l : List Char) : (pyStrip l) <+: l.dropWhile pyIsSpace := by
  unfold pyStrip
  have hsuf : ((l.dropWhile pyIsSpace).reverse.dropWhile pyIsSpace) <:+
      (l.dropWhile pyIsSpace).reverse := List.dropWhile_suffix _
  have := List.reverse_prefix.mpr hsuf
  rwa [List.reverse_reverse] at this

theorem pyStrip_isInfix (l : List Char) : (pyStrip l) <:+: l :=
  List.IsInfix.trans (List.IsPrefix.isInfix (pyStrip_isPre l))
    (List.IsSuffix.isInfix (List.dropWhile_suffix _))

theorem pyStrip_head (l : List Char) : (pyStrip l).head? = none ∨
    ∃ c t, pyStrip l = c :: t ∧ pyIsSpace c = false := by
  cases hp : pyStrip l with
  | nil => exact Or.inl rfl
  | cons c t =>
      refine Or.inr ⟨c, t, rfl, ?_⟩
      have hpre := pyStrip_isPre l
      rw [hp] at hpre
      obtain ⟨z, hz⟩ := hpre
      rcases dropWhile_head_false (p := pyIsSpace) (l := l) with hn | ⟨c', t', he, hc'⟩
      · rw [← hz] at hn
        simp at hn
      · rw [he] at hz
        rw [List.cons_append] at hz
        have : c' = c := (List.cons_eq_cons.mp hz.symm).1
        rwa [this] at hc'

theorem pyStrip_last (l : List Char) : (pyStrip l).getLast? = none ∨
    ∃ c, (pyStrip l).getLast? = some c ∧ pyIsSpace c = false := by
  unfold pyStrip
  rw [List.getLast?_reverse]
  rcases dropWhile_head_false (p := pyIsSpace) (l := (l.dropWhile pyIsSpace).reverse)
    with hn | ⟨c, t, he, hc⟩
  · rw [hn]
    exact Or.inl rfl
  · rw [he]
    exact Or.inr ⟨c, rfl, hc⟩

/-- Removing a prefix or suffix slice of a tidy string and stripping edge
whitespace yields a tidy string again. -/
theorem tidy_pyStrip {s l : List Char} (hs : SpaceTidy s) (hl : l <:+: s) :
    SpaceTidy (pyStrip l) := by
  obtain ⟨h1, h2, _, _⟩ := hs
  have hinf : pyStrip l <:+: s := List.IsInfix.trans (pyStrip_isInfix l) hl
  refine ⟨?_, ?_, ?_, ?_⟩
  · intro c hc hcs
    exact h1 c (hinf.sublist.subset hc) hcs
  · exact List.Chain'.infix h2 hinf
  · rcases pyStrip_head l with hn | ⟨c, t, he, hc⟩
    · rw [hn]
      simp
    · rw [he]
      simp only [List.head?_cons, ne_eq, Option.some.injEq]
      intro hcsp
      rw [hcsp] at hc
      simp [pyIsSpace] at hc
  · rcases pyStrip_last l with hn | ⟨c, he, hc⟩
    · rw [hn]
      simp
    · rw [he]
      simp only [ne_eq, Option.some.injEq]
      intro hcsp
      rw [hcsp] at hc
      simp [pyIsSpace] at hc

/-- The joint invariant of the title canonicalizer: whitespace-collapsed and
fixed under lowercasing. -/
def TidyLower (s : List Char) : Prop := SpaceTidy s ∧ pyLower s = s

theorem lower_fixed_of_subset {s l : List Char} (hs : pyLower s = s)
    (hsub : ∀ c ∈ l, c ∈ s) : pyLower l = l :=
  pyLower_fixed_of_forall l (fun c hc => forall_pyToLower_of_fixed s hs c (hsub c hc))

theorem dropOnePre_tl {s : List Char} (p : List Char) (h : TidyLower s) :
    TidyLower (dropOnePre s p) := by
  unfold dropOnePre
  by_cases hp : p.isPrefixOf s = true
  · rw [if_pos hp]
    refine ⟨tidy_pyStrip h.1 (List.IsSuffix.isInfix (List.drop_suffix _ _)), ?_⟩
    exact lower_fixed_of_subset h.2
      (fun c hc => ((pyStrip_isInfix _).sublist.subset hc) |>
        fun hm => (List.drop_suffix _ _).sublist.subset hm)
  · rw [if_neg hp]
    exact h

theorem dropOneSuf_tl {s : List Char} (p : List Char) (h : TidyLower s) :
    TidyLower (dropOneSuf s p) := by
  unfold dropOneSuf
  by_cases hp : p.isSuffixOf s = true
  · rw [if_pos hp]
    refine ⟨tidy_pyStrip h.1 (List.IsPrefix.isInfix (List.take_prefix _ _)), ?_⟩
    exact lower_fixed_of_subset h.2
      (fun c hc => ((pyStrip_isInfix _).sublist.subset hc) |>
        fun hm => (List.take_prefix _ _).sublist.subset hm)
  · rw [if_neg hp]
    exact h

theorem foldl_dropOnePre_tl (l : List (List Char)) (s : List Char) (h : TidyLower s) :
    TidyLower (l.foldl dropOnePre s) := by
  induction l generalizing s with
  | nil => exact h
  | cons p r ih => exact ih _ (dropOnePre_tl p h)

theorem foldl_dropOneSuf_tl (l : List (List Char)) (s : List Char) (h : TidyLower s) :
    TidyLower (l.foldl dropOneSuf s) := by
  induction l generalizing s with
  | nil => exact h
  | cons p r ih => exact ih _ (dropOneSuf_tl p h)

theorem collapseWs_tl (t : List Char) : TidyLower (collapseWs (pyLower t)) := by
  constructor
  · exact tidy_joinSep _ (fun p hp =>
      ⟨(splitWs_pieces _ p hp).1, (splitWs_pieces _ p hp).2.1⟩)
  · refine pyLower_fixed_of_forall _ ?_
    intro c hc
    rcases mem_joinSep hc with hsep | ⟨p, hp, hcp⟩
    · have : c = ' ' := by simpa using hsep
      rw [this]
      decide
    · have hcm : c ∈ pyLower t := (splitWs_pieces _ p hp).2.2 c hcp
      obtain ⟨d, _, hd⟩ := List.mem_map.mp hcm
      rw [← hd]
      exact pyToLower_idem d

/-- Every output of `_normalize_title` is whitespace-collapsed and
lowercase. -/
theorem normalizeTitle_tl (t : List Char) : TidyLower (normalizeTitle t) :=
  foldl_dropOneSuf_tl _ _ (foldl_dropOnePre_tl _ _ (collapseWs_tl t))

theorem foldl_dropOnePre_id {l : List (List Char)} {s : List Char}
    (h : ∀ p ∈ l, p.isPrefixOf s = false) : l.foldl dropOnePre s = s := by
  induction l with
  | nil => rfl
  | cons p r ih =>
      show r.foldl dropOnePre (dropOnePre s p) = s
      rw [dropOnePre, if_neg (by rw [h p (List.mem_cons_self _ _)]; simp)]
      exact ih (fun q hq => h q (List.mem_cons_of_mem _ hq))

theorem foldl_dropOneSuf_id {l : List (List Char)} {s : List Char}
    (h : ∀ p ∈ l, p.isSuffixOf s = false) : l.foldl dropOneSuf s = s := by
  induction l with
  | nil => rfl
  | cons p r ih =>
      show r.foldl dropOneSuf (dropOneSuf s p) = s
      rw [dropOneSuf, if_neg (by rw [h p (List.mem_cons_self _ _)]; simp)]
      exact ih (fun q hq => h q (List.mem_cons_of_mem _ hq))

/-- On titles whose canonical form retains none of the removable prefixes or
suffixes, `_normalize_title` is idempotent. -/
theorem normalizeTitle_idem_of_no_affix (t : List Char)
    (hpre : ∀ p ∈ titlePrefixList, p.isPrefixOf (normalizeTitle t) = false)
    (hsuf : ∀ p ∈ titleSuffixList, p.isSuffixOf (normalizeTitle t) = false) :
    normalizeTitle (normalizeTitle t) = normalizeTitle t := by
  have htl := normalizeTitle_tl t
  show titleSuffixList.foldl dropOneSuf
      (titlePrefixList.foldl dropOnePre (collapseWs (pyLower (normalizeTitle t)))) = _
  rw [htl.2, collapse_tidy _ htl.1, foldl_dropOnePre_id hpre, foldl_dropOneSuf_id hsuf]

/-! ## Claim C2 -/

/-- Concrete inputs exhibiting non-idempotence of the canonicalizers. -/
def c2uBad : List Char := "https://e.com/a/#x".toList

def c2tBad : List Char := "breaking: breaking: story".toList

/-- C2 counterexample: canonicalization is not idempotent as claimed.  For
the URL `https://e.com/a/#x` dropping the fragment leaves a trailing slash
that only a second application strips, and for the title
`breaking: breaking: story` the prefix loop removes one `breaking:` per
application. -/
theorem C2_counterexample :
    scraperNormalizeUrl (scraperNormalizeUrl c2uBad) ≠ scraperNormalizeUrl c2uBad ∧
    normalizeTitle (normalizeTitle c2tBad) ≠ normalizeTitle c2tBad :=
  ⟨by decide, by decide⟩

/-- C2 (amended): URL canonicalization is idempotent on URLs containing
neither `#` nor `?`, and title canonicalization is idempotent on titles
whose canonical form neither starts with a removable prefix nor ends with a
removable suffix. -/
theorem C2_canonicalization_idem (u t : List Char)
    (hu1 : '#' ∉ u) (hu2 : '?' ∉ u)
    (ht1 : ∀ p ∈ titlePrefixList, p.isPrefixOf (normalizeTitle t) = false)
    (ht2 : ∀ p ∈ titleSuffixList, p.isSuffixOf (normalizeTitle t) = false) :
    scraperNormalizeUrl (scraperNormalizeUrl u) = scraperNormalizeUrl u ∧
    normalizeTitle (normalizeTitle t) = normalizeTitle t :=
  ⟨scraperNormalizeUrl_idem_of_clean u hu1 hu2,
   normalizeTitle_idem_of_no_affix t ht1 ht2⟩

def c2u : List Char := "https://WWW.Example.com/News/story/".toList

def c2t : List Char := "  BREAKING:   City  Hall  Update  ".toList

theorem C2_canonicalization_idem_witness :
    scraperNormalizeUrl (scraperNormalizeUrl c2u) = scraperNormalizeUrl c2u ∧
    normalizeTitle (normalizeTitle c2t) = normalizeTitle c2t :=
  C2_canonicalization_idem c2u c2t (by decide) (by decide) (by decide) (by decide)

/-! ## Claim C3 -/

def c3err : List Char := "disk error".toList

def c3url : List Char := "https://example.com/a".toList

/-- C3 counterexample: when the skip flag is enabled and the store read
fails, `_check_if_recently_scraped` propagates the error instead of
returning false — there is no exception handler on the read path. -/
theorem C3_counterexample :
    checkIfRecentlyScraped true (.error c3err) c3url 100 24 ≠ .ok false ∧
    checkIfRecentlyScraped true (.error c3err) c3url 100 24 = .error c3err := by
  have h : checkIfRecentlyScraped true (.error c3err) c3url 100 24 =
      (.error c3err : Except (List Char) Bool) := rfl
  refine ⟨?_, h⟩
  rw [h]
  simp

/-- C3 (amended): `wasRecentlyScraped` returns false whenever the
skip-recently-scraped flag is disabled, regardless of the stored history and
without touching the store (even an erroring read cannot affect it); when
the flag is enabled, a store read failure propagates to the caller rather
than being treated as a miss. -/
theorem C3_cache_read_policy (readStore : Except (List Char) (List ScrapedRow))
    (url e : List Char) (now window : Nat) :
    checkIfRecentlyScraped false readStore url now window = .ok false ∧
    checkIfRecentlyScraped true (.error e) url now window = .error e :=
  ⟨rfl, rfl⟩

/-! ## Claim C7 -/

/-- C7: a URL whose canonical form equals the canonical form of a configured
seed news site is never skipped by the recency cache in `fetch_website`,
whatever the force flag, the skip flag, and the stored history (even an
erroring store read). -/
theorem C7_seed_never_cache_skipped (newsSites : List (List Char)) (url s : List Char)
    (hs : s ∈ newsSites) (hnorm : scraperNormalizeUrl s = scraperNormalizeUrl url)
    (force skipFlag : Bool) (readStore : Except (List Char) (List ScrapedRow))
    (now window : Nat) :
    fetchSkipsForCache newsSites force skipFlag readStore url now window = .ok false := by
  have hnews : isNewsSiteUrl newsSites url = true := by
    unfold isNewsSiteUrl
    refine List.any_eq_true.mpr ⟨s, hs, ?_⟩
    exact beq_iff_eq.mpr hnorm
  unfold fetchSkipsForCache
  rw [hnews]
  simp

def c7seed : List Char := "https://www.hudsonhubtimes.com".toList

def c7url : List Char := "https://www.hudsonhubtimes.com/".toList

def c7row : ScrapedRow := mkScrapedRow c7url none none 99 true

theorem C7_seed_never_cache_skipped_witness :
    fetchSkipsForCache [c7seed] false true (.ok [c7row]) c7url 100 24 = .ok false :=
  C7_seed_never_cache_skipped [c7seed] c7url c7seed (by decide) (by decide)
    false true (.ok [c7row]) 100 24

/-! ## Claim C8 -/

theorem isSubOf_iff (n : List Char) : ∀ h : List Char, isSubOf n h = true ↔ n <:+: h := by
  intro h
  induction h with
  | nil =>
      show n.isEmpty = true ↔ n <:+: []
      rw [List.isEmpty_iff, List.infix_nil]
  | cons c t ih =>
      show (n.isPrefixOf (c :: t) || isSubOf n t) = true ↔ n <:+: c :: t
      rw [Bool.or_eq_true, List.infix_cons_iff, ih]
      constructor
      · rintro (hp | hi)
        · exact Or.inl ( List.isPrefixOf_iff_prefix.mp hp)
        · exact Or.inr hi
      · rintro (hp | hi)
        · exact Or.inl ( List.isPrefixOf_iff_prefix.mpr hp)
        · exact Or.inr hi

/-- Case analysis of the body of `_titles_are_similar`, for arbitrary
canonical forms. -/
theorem titleSimAux (n1 n2 : List Char) :
    (if n1 == n2 then true
     else if n1.length > 20 && n2.length > 20 then
       (let sl := if n1.length < n2.length then (n1, n2) else (n2, n1)
        isSubOf sl.1 sl.2 && decide (5 * sl.1.length > 4 * sl.2.length))
     else false) = true ↔
      (n1 = n2 ∨ (20 < n1.length ∧ 20 < n2.length ∧
        ((n1.length ≤ n2.length ∧ n1 <:+: n2 ∧ 4 * n2.length < 5 * n1.length) ∨
         (n2.length ≤ n1.length ∧ n2 <:+: n1 ∧ 4 * n1.length < 5 * n2.length)))) := by
  by_cases heq : n1 = n2
  · rw [beq_iff_eq.mpr heq]
    simp [heq]
  · rw [beq_eq_false_iff_ne.mpr heq]
    by_cases hlen : 20 < n1.length ∧ 20 < n2.length
    · have hb : (n1.length > 20 && n2.length > 20) = true := by
        simp [hlen.1, hlen.2]
      rw [hb]
      by_cases hlt : n1.length < n2.length
      · rw [if_pos hlt]
        simp only [Bool.false_eq_true, if_false, if_true]
        rw [Bool.and_eq_true, isSubOf_iff, decide_eq_true_iff]
        constructor
        · rintro ⟨hinf, hrat⟩
          exact Or.inr ⟨hlen.1, hlen.2, Or.inl ⟨Nat.le_of_lt hlt, hinf, hrat⟩⟩
        · rintro (hcontra | ⟨_, _, ⟨_, hinf, hrat⟩ | ⟨hle, _, _⟩⟩)
          · exact absurd hcontra heq
          · exact ⟨hinf, hrat⟩
          · omega
      · rw [if_neg hlt]
        simp only [Bool.false_eq_true, if_false, if_true]
        rw [Bool.and_eq_true, isSubOf_iff, decide_eq_true_iff]
        constructor
        · rintro ⟨hinf, hrat⟩
          exact Or.inr ⟨hlen.1, hlen.2, Or.inr ⟨Nat.le_of_not_lt hlt, hinf, hrat⟩⟩
        · rintro (hcontra | ⟨_, _, ⟨hle, hinf, hrat⟩ | ⟨_, hinf, hrat⟩⟩)
          · exact absurd hcontra heq
          · exfalso
            have hlene : n1.length = n2.length := by omega
            exact heq (List.IsInfix.eq_of_length hinf hlene)
          · exact ⟨hinf, hrat⟩
    · have hb : (n1.length > 20 && n2.length > 20) = false := by
        rcases Decidable.not_and_iff_or_not.mp hlen with hl | hl
        all_goals simp [Nat.not_lt.mp hl]
      rw [hb]
      simp only [Bool.false_eq_true, if_false, false_iff]
      rintro (hcontra | ⟨ha, hb2, _⟩)
      · exact absurd hcontra heq
      · exact hlen ⟨ha, hb2⟩

/-- C8: `_titles_are_similar` holds exactly when the canonical forms are
equal, or both exceed 20 characters and the shorter is a contiguous
substring of the longer with length ratio strictly above 4/5 (the Python
float comparison `> 0.8` modelled exactly over the rationals). -/
theorem C8_title_similarity (t1 t2 : List Char) :
    titlesAreSimilar t1 t2 = true ↔
      (normalizeTitle t1 = normalizeTitle t2 ∨
        (20 < (normalizeTitle t1).length ∧ 20 < (normalizeTitle t2).length ∧
          (((normalizeTitle t1).length ≤ (normalizeTitle t2).length ∧
              normalizeTitle t1 <:+: normalizeTitle t2 ∧
              4 * (normalizeTitle t2).length < 5 * (normalizeTitle t1).length) ∨
            ((normalizeTitle t2).length ≤ (normalizeTitle t1).length ∧
              normalizeTitle t2 <:+: normalizeTitle t1 ∧
              4 * (normalizeTitle t1).length < 5 * (normalizeTitle t2).length)))) :=
  titleSimAux (normalizeTitle t1) (normalizeTitle t2)

/-! ## Claim C9 -/

/-- The `url_hash` UNIQUE constraint as a store invariant. -/
def scrapedKeyDistinct (db : List ScrapedRow) : Prop :=
  db.Pairwise (fun a b => a.urlHash ≠ b.urlHash)

/-- C9: `_store_scraped_article` upserts keyed by the canonical-URL hash: it
preserves the one-row-per-hash invariant, and after two stores whose URLs
share a canonical form the store holds exactly one row for that canonical
URL, carrying the fields of the second (latest) attempt, whether it
succeeded or failed. -/
theorem C9_scrape_upsert (db : List ScrapedRow) (u1 u2 : List Char)
    (h1 c1 h2 c2 : Option (List Char)) (s1 s2 : Bool) (t1 t2 : Nat)
    (hcanon : scraperNormalizeUrl u1 = scraperNormalizeUrl u2) :
    (scrapedKeyDistinct db → scrapedKeyDistinct (storeScrapedArticle db u1 h1 c1 s1 t1)) ∧
    ((storeScrapedArticle (storeScrapedArticle db u1 h1 c1 s1 t1) u2 h2 c2 s2 t2).filter
        (fun x => x.urlHash == hashString (scraperNormalizeUrl u1)) =
      [mkScrapedRow u2 h2 c2 t2 s2]) := by
  constructor
  · intro hdist
    unfold storeScrapedArticle scrapedKeyDistinct
    rw [List.pairwise_append]
    refine ⟨ List.Pairwise.filter _ hdist, List.pairwise_singleton .., ?_⟩
    intro a ha b hb
    rw [List.mem_singleton] at hb
    subst hb
    have := (List.mem_filter.mp ha).2
    simpa using this
  · rw [hcanon]
    show List.filter _ (List.filter _ (storeScrapedArticle db u1 h1 c1 s1 t1) ++
        [mkScrapedRow u2 h2 c2 t2 s2]) = _
    rw [List.filter_append, List.filter_filter]
    have hnil : List.filter
        (fun a => a.urlHash == hashString (scraperNormalizeUrl u2) &&
          !(a.urlHash == (mkScrapedRow u2 h2 c2 t2 s2).urlHash))
        (storeScrapedArticle db u1 h1 c1 s1 t1) = [] := by
      apply List.filter_eq_nil_iff.mpr
      intro a _
      show ¬(a.urlHash == hashString (scraperNormalizeUrl u2) &&
        !(a.urlHash == (mkScrapedRow u2 h2 c2 t2 s2).urlHash)) = true
      have hkey : (mkScrapedRow u2 h2 c2 t2 s2).urlHash =
          hashString (scraperNormalizeUrl u2) := rfl
      rw [hkey]
      cases hb : a.urlHash == hashString (scraperNormalizeUrl u2)
      · simp
      · simp
    rw [hnil, List.nil_append]
    have hself : ((mkScrapedRow u2 h2 c2 t2 s2).urlHash ==
        hashString (scraperNormalizeUrl u2)) = true := by
      exact beq_iff_eq.mpr rfl
    rw [List.filter_cons]
    rw [if_pos hself]
    rfl

def c9u1 : List Char := "https://example.com/story".toList

def c9u2 : List Char := "https://example.com/story/".toList

theorem C9_scrape_upsert_witness :
    (scrapedKeyDistinct [] →
      scrapedKeyDistinct (storeScrapedArticle [] c9u1 (some ("h1".toList)) none false 5)) ∧
    ((storeScrapedArticle
        (storeScrapedArticle [] c9u1 (some ("h1".toList)) none false 5)
        c9u2 (some ("h2".toList)) (some ("body text".toList)) true 9).filter
        (fun x => x.urlHash == hashString (scraperNormalizeUrl c9u1)) =
      [mkScrapedRow c9u2 (some ("h2".toList)) (some ("body text".toList)) 9 true]) :=
  C9_scrape_upsert [] c9u1 c9u2 (some ("h1".toList)) none (some ("h2".toList))
    (some ("body text".toList)) false true 5 9 (by decide)

/-! ## Claim C5 -/

set_option maxHeartbeats 1600000 in
theorem firstHit_cons (item : NewsItem) (p : RedditPost) (ps : List RedditPost) :
    firstHit item (p :: ps) =
      (match checkOnePost item p with
       | some r => some r
       | none => firstHit item ps) := rfl

theorem checkOnePost_dups_error (item : NewsItem) (p : RedditPost) (e : List Char)
    (hdup : p.dups = .error e) :
    checkOnePost item p = checkOnePost item ⟨p.id, p.url, p.title, .ok []⟩ := by
  cases p with
  | mk pid purl ptitle pdups =>
      simp only at hdup
      subst hdup
      rfl

theorem firstHit_dups_error (item : NewsItem) (e : List Char) :
    ∀ pre : List RedditPost, ∀ p : RedditPost, p.dups = .error e → ∀ post,
      firstHit item (pre ++ p :: post) =
        firstHit item (pre ++ (⟨p.id, p.url, p.title, .ok []⟩ : RedditPost) :: post) := by
  intro pre
  induction pre with
  | nil =>
      intro p hdup post
      rw [List.nil_append, List.nil_append, firstHit_cons, firstHit_cons,
        checkOnePost_dups_error item p e hdup]
  | cons a pre' ih =>
      intro p hdup post
      rw [List.cons_append, List.cons_append, firstHit_cons, firstHit_cons,
        ih p hdup post]

/-- C5: inside `_check_reddit_submissions`, a failure raised while walking one
post's duplicates relation is swallowed — the probe behaves exactly as if
that post had no known duplicates, and continues with the remaining posts
and queries — whereas a failure fetching the search results for a query
propagates to the caller and aborts the probe, and is never converted into a
"no duplicate" answer. -/
theorem C5_probe_failure_policy (item : NewsItem) (pre post : List RedditPost)
    (p : RedditPost) (e1 e2 : List Char)
    (search : List Char → Except (List Char) (List RedditPost)) (q : List Char)
    (qs : List (List Char)) (hdup : p.dups = .error e1) (hq : search q = .error e2) :
    (firstHit item (pre ++ p :: post) =
      firstHit item (pre ++ (⟨p.id, p.url, p.title, .ok []⟩ : RedditPost) :: post)) ∧
    (checkQueryList search item (q :: qs) = .error e2) := by
  constructor
  · exact firstHit_dups_error item e1 pre p hdup post
  · unfold checkQueryList
    rw [hq]
    rfl

def c5item : NewsItem := ⟨"Local story headline".toList, "https://example.com/story".toList⟩

def c5post : RedditPost :=
  ⟨"abc".toList, "https://other.example.org/x".toList, "An unrelated post title".toList,
    .error ("api timeout".toList)⟩

def c5search : List Char → Except (List Char) (List RedditPost) :=
  fun _ => .error ("search down".toList)

theorem C5_probe_failure_policy_witness :
    (firstHit c5item ([] ++ c5post :: []) =
      firstHit c5item
        ([] ++ (⟨c5post.id, c5post.url, c5post.title, .ok []⟩ : RedditPost) :: [])) ∧
    (checkQueryList c5search c5item (("site:q".toList) :: []) =
      .error ("search down".toList)) :=
  C5_probe_failure_policy c5item [] [] c5post ("api timeout".toList) ("search down".toList)
    c5search ("site:q".toList) [] rfl rfl

/-! ## Claim C6 -/

def c6a1 : ExtractedArticle :=
  ⟨"https://e.com/u1".toList, "Breaking: Local Story Tonight".toList, "body one".toList⟩

def c6a2 : ExtractedArticle :=
  ⟨"https://e.com/u2".toList, "local story tonight".toList, "body two".toList⟩

/-- C6 counterexample: the pass-2 batch key is the headline lower-cased and
stripped, not the canonical title per `_normalize_title`.  The two headlines
here share a canonical title (`local story tonight`), so under the claim's
description the second article would be dropped, but the code accepts both. -/
theorem C6_counterexample :
    pass2Claim [c6a1, c6a2] = [c6a1] ∧ pass2 [c6a1, c6a2] = [c6a1, c6a2] :=
  ⟨by decide, by decide⟩

theorem pass2Step_seen_headline (hs fs : List (List Char)) (out : List ExtractedArticle)
    (a : ExtractedArticle) (h1 : hs.contains (headlineKey a.headline) = true) :
    pass2Step (hs, fs, out) a = (hs, fs, out) := by
  simp [pass2Step, headlineKey] at h1 ⊢
  simp [h1]

theorem pass2Step_seen_content (hs fs : List (List Char)) (out : List ExtractedArticle)
    (a : ExtractedArticle) (h1 : hs.contains (headlineKey a.headline) = false)
    (h2 : fs.contains (contentFp a.content) = true) :
    pass2Step (hs, fs, out) a = (hs, fs, out) := by
  simp [pass2Step, headlineKey, contentFp] at h1 h2 ⊢
  simp [h1, h2]

theorem pass2Step_accept (hs fs : List (List Char)) (out : List ExtractedArticle)
    (a : ExtractedArticle) (h1 : hs.contains (headlineKey a.headline) = false)
    (h2 : fs.contains (contentFp a.content) = false) :
    pass2Step (hs, fs, out) a =
      (headlineKey a.headline :: hs, contentFp a.content :: fs, out ++ [a]) := by
  simp [pass2Step, headlineKey, contentFp] at h1 h2 ⊢
  simp [h1, h2]

/-- C6 (amended): in pass 2 an article is dropped when its lower-cased and
stripped headline is already in the batch set, otherwise dropped when the
fingerprint of the first 500 characters of its body is already seen,
otherwise accepted with both keys recorded; consequently two articles with
different headline keys but identical first-500-character fingerprints yield
exactly one accepted article. -/
theorem C6_pass2_content_dedup (a1 a2 : ExtractedArticle)
    (hhl : headlineKey a1.headline ≠ headlineKey a2.headline)
    (hfp : contentFp a1.content = contentFp a2.content) :
    pass2 [a1, a2] = [a1] ∧
    (∀ hs fs : List (List Char), ∀ out : List ExtractedArticle, ∀ a : ExtractedArticle,
      (hs.contains (headlineKey a.headline) = true →
        pass2Step (hs, fs, out) a = (hs, fs, out)) ∧
      (hs.contains (headlineKey a.headline) = false →
        fs.contains (contentFp a.content) = true →
        pass2Step (hs, fs, out) a = (hs, fs, out)) ∧
      (hs.contains (headlineKey a.headline) = false →
        fs.contains (contentFp a.content) = false →
        pass2Step (hs, fs, out) a =
          (headlineKey a.headline :: hs, contentFp a.content :: fs, out ++ [a]))) := by
  constructor
  · show (pass2Step (pass2Step ([], [], []) a1) a2).2.2 = [a1]
    have s1 : pass2Step ([], [], []) a1 =
        ([headlineKey a1.headline], [contentFp a1.content], [a1]) :=
      pass2Step_accept [] [] [] a1 rfl rfl
    rw [s1]
    have hc1 : [headlineKey a1.headline].contains (headlineKey a2.headline) = false := by
      simp only [List.contains_cons, Bool.or_eq_true]
      simp [beq_eq_false_iff_ne.mpr (Ne.symm hhl)]
    have hc2 : [contentFp a1.content].contains (contentFp a2.content) = true := by
      simp [List.contains_cons, hfp]
    rw [pass2Step_seen_content _ _ _ _ hc1 hc2]
  · intro hs fs out a
    exact ⟨pass2Step_seen_headline hs fs out a,
      pass2Step_seen_content hs fs out a,
      pass2Step_accept hs fs out a⟩

def c6b1 : ExtractedArticle :=
  ⟨"https://e.com/v1".toList, "First headline wording".toList, "Same wire body text".toList⟩

def c6b2 : ExtractedArticle :=
  ⟨"https://e.com/v2".toList, "Second different headline".toList, "  same wire body text ".toList⟩

theorem C6_pass2_content_dedup_witness : pass2 [c6b1, c6b2] = [c6b1] :=
  (C6_pass2_content_dedup c6b1 c6b2 (by decide) (by decide)).1

/-! ## Claims C1 and C10 -/

theorem checkLocal_inversion (db : List SubmittedRow) (item : NewsItem)
    (h : checkLocalDatabase db item = (false, none)) :
    db.find? (fun r => r.urlHash == hashString (dedupNormalizeUrl item.link)) = none ∧
    db.find? (fun r => r.titleHash == hashString (normalizeTitle item.headline)) = none := by
  simp only [checkLocalDatabase] at h
  cases hf : db.find? (fun r => r.urlHash == hashString (dedupNormalizeUrl item.link)) with
  | some r =>
      rw [hf] at h
      simp at h
  | none =>
      rw [hf] at h
      cases hg : db.find? (fun r => r.titleHash == hashString (normalizeTitle item.headline)) with
      | some r =>
          rw [hg] at h
          simp at h
      | none => exact ⟨rfl, rfl⟩

set_option maxHeartbeats 1600000 in
theorem checkLocal_after_store (db : List SubmittedRow) (item : NewsItem) (now : Nat)
    (src : List Char) (hlocal : checkLocalDatabase db item = (false, none)) :
    checkLocalDatabase (storeSubmission db item none now src) item =
      (true, some (urlReason none now)) := by
  have hinv := checkLocal_inversion db item hlocal
  simp only [checkLocalDatabase, storeSubmission]
  rw [ List.find?_append, hinv.1]
  have hrow : ((mkSubmittedRow item none now src).urlHash ==
      hashString (dedupNormalizeUrl item.link)) = true := by
    simp only [mkSubmittedRow]
    exact beq_self_eq_true _
  rw [@List.find?_cons_of_pos _
    (fun r => r.urlHash == hashString (dedupNormalizeUrl item.link))
    (mkSubmittedRow item none now src) [] hrow]
  rfl

set_option maxHeartbeats 1600000 in
theorem isDuplicate_local_hit (search : List Char → Except (List Char) (List RedditPost))
    (db : List SubmittedRow) (item : NewsItem) (now : Nat) (res : Bool × Option (List Char))
    (hres : checkLocalDatabase db item = res) (htrue : res.1 = true) :
    isDuplicate true search db item now = .ok (true, res.2, db, false) := by
  unfold isDuplicate
  rw [hres]
  obtain ⟨b, reason⟩ := res
  simp only at htrue
  subst htrue
  rfl

set_option maxHeartbeats 1600000 in
theorem isDuplicate_remote_hit (search : List Char → Except (List Char) (List RedditPost))
    (db : List SubmittedRow) (item : NewsItem) (now : Nat) (r : List Char)
    (hlocal : checkLocalDatabase db item = (false, none))
    (hprobe : checkRedditSubmissions search item = .ok (true, some r)) :
    isDuplicate true search db item now =
      .ok (true, some r, storeSubmission db item none now ("reddit".toList), true) := by
  unfold isDuplicate
  rw [hlocal]
  show (do
      let rr ← checkRedditSubmissions search item
      if rr.1 then
        .ok (true, rr.2, storeSubmission db item none now ("reddit".toList), true)
      else .ok (false, none, db, true)) = _
  rw [hprobe]
  rfl

/-- Shared consequence of a remote-probe hit: the verdict, the written row,
and the behaviour of an immediate repeat call. -/
theorem engine_remote_hit (search : List Char → Except (List Char) (List RedditPost))
    (db : List SubmittedRow) (item : NewsItem) (now : Nat) (r : List Char)
    (hlocal : checkLocalDatabase db item = (false, none))
    (hprobe : checkRedditSubmissions search item = .ok (true, some r)) :
    (isDuplicate true search db item now =
      .ok (true, some r, storeSubmission db item none now ("reddit".toList), true)) ∧
    (∀ search2 : List Char → Except (List Char) (List RedditPost), ∀ now2 : Nat,
      isDuplicate true search2 (storeSubmission db item none now ("reddit".toList)) item now2 =
        .ok (true, some (urlReason none now),
          storeSubmission db item none now ("reddit".toList), false)) := by
  refine ⟨isDuplicate_remote_hit search db item now r hlocal hprobe, ?_⟩
  intro search2 now2
  exact isDuplicate_local_hit search2 _ item now2 _
    (checkLocal_after_store db item now ("reddit".toList) hlocal) rfl

def c1item : NewsItem :=
  ⟨"City approves new park funding plan".toList, "https://example.com/story".toList⟩

def c1post : RedditPost :=
  ⟨"p99".toList, "https://example.com/story".toList,
    "Some completely different words".toList, .ok []⟩

def c1search : List Char → Except (List Char) (List RedditPost) := fun _ => .ok [c1post]

set_option maxHeartbeats 1600000 in
/-- C1 counterexample: on a local miss with a remote-probe hit,
`is_duplicate` stores the `SubmissionRecord` with `source="reddit"`, not
`source="remote"` as the claim states. -/
theorem C1_counterexample :
    isDuplicate true c1search [] c1item 7 =
      .ok (true, some (similarUrlReason c1post),
        [mkSubmittedRow c1item none 7 ("reddit".toList)], true) ∧
    (mkSubmittedRow c1item none 7 ("reddit".toList)).source ≠ "remote".toList :=
  ⟨rfl, by decide⟩

/-- C1 (amended): when the local lookup misses and the remote probe reports
a hit, `is_duplicate` writes a `SubmissionRecord` whose source field is
`"reddit"` and returns (true, probe reason); an immediate repeat call on the
same candidate then returns true via the local-lookup path — with the
local URL-match reason — without invoking the prober (the result no longer
depends on the search collaborator, and the probed flag is false). -/
theorem C1_remote_hit_caches (search : List Char → Except (List Char) (List RedditPost))
    (db : List SubmittedRow) (item : NewsItem) (now : Nat) (r : List Char)
    (hlocal : checkLocalDatabase db item = (false, none))
    (hprobe : checkRedditSubmissions search item = .ok (true, some r)) :
    (isDuplicate true search db item now =
      .ok (true, some r, db ++ [mkSubmittedRow item none now ("reddit".toList)], true)) ∧
    (mkSubmittedRow item none now ("reddit".toList)).source = "reddit".toList ∧
    (∀ search2 : List Char → Except (List Char) (List RedditPost), ∀ now2 : Nat,
      isDuplicate true search2 (db ++ [mkSubmittedRow item none now ("reddit".toList)]) item now2 =
        .ok (true, some (urlReason none now),
          db ++ [mkSubmittedRow item none now ("reddit".toList)], false)) :=
  ⟨(engine_remote_hit search db item now r hlocal hprobe).1, rfl,
    (engine_remote_hit search db item now r hlocal hprobe).2⟩

set_option maxHeartbeats 1600000 in
theorem C1_remote_hit_caches_witness :
    (isDuplicate true c1search [] c1item 7 =
      .ok (true, some (similarUrlReason c1post),
        [] ++ [mkSubmittedRow c1item none 7 ("reddit".toList)], true)) ∧
    (mkSubmittedRow c1item none 7 ("reddit".toList)).source = "reddit".toList ∧
    (∀ search2 : List Char → Except (List Char) (List RedditPost), ∀ now2 : Nat,
      isDuplicate true search2 ([] ++ [mkSubmittedRow c1item none 7 ("reddit".toList)]) c1item now2 =
        .ok (true, some (urlReason none 7),
          [] ++ [mkSubmittedRow c1item none 7 ("reddit".toList)], false)) :=
  C1_remote_hit_caches c1search [] c1item 7 (similarUrlReason c1post) rfl rfl

/-- C10: the `SubmissionRecord` written by the remote-probe path of
`is_duplicate` carries a NULL remote post identifier: the matched post's id
appears only in the probe's reason string, while the stored row's
`submission_id` is `None`; a later local-lookup verdict for the same
candidate therefore reports a reason whose identifier field renders as
`None`. -/
theorem C10_remote_record_no_id (search : List Char → Except (List Char) (List RedditPost))
    (db : List SubmittedRow) (item : NewsItem) (now : Nat) (r : List Char)
    (hlocal : checkLocalDatabase db item = (false, none))
    (hprobe : checkRedditSubmissions search item = .ok (true, some r)) :
    (mkSubmittedRow item none now ("reddit".toList)).submissionId = none ∧
    (isDuplicate true search db item now =
      .ok (true, some r, db ++ [mkSubmittedRow item none now ("reddit".toList)], true)) ∧
    (∀ search2 : List Char → Except (List Char) (List RedditPost), ∀ now2 : Nat,
      isDuplicate true search2 (db ++ [mkSubmittedRow item none now ("reddit".toList)]) item now2 =
        .ok (true, some (urlReason none now),
          db ++ [mkSubmittedRow item none now ("reddit".toList)], false)) ∧
    urlReason none now =
      "URL already submitted (ID: None, Date: ".toList ++ pyShowNat now ++ [')'] :=
  ⟨rfl, (engine_remote_hit search db item now r hlocal hprobe).1,
    (engine_remote_hit search db item now r hlocal hprobe).2, rfl⟩

set_option maxHeartbeats 1600000 in
theorem C10_remote_record_no_id_witness :
    (mkSubmittedRow c1item none 7 ("reddit".toList)).submissionId = none ∧
    (isDuplicate true c1search [] c1item 7 =
      .ok (true, some (similarUrlReason c1post),
        [] ++ [mkSubmittedRow c1item none 7 ("reddit".toList)], true)) ∧
    (∀ search2 : List Char → Except (List Char) (List RedditPost), ∀ now2 : Nat,
      isDuplicate true search2 ([] ++ [mkSubmittedRow c1item none 7 ("reddit".toList)]) c1item now2 =
        .ok (true, some (urlReason none 7),
          [] ++ [mkSubmittedRow c1item none 7 ("reddit".toList)], false)) ∧
    urlReason none 7 =
      "URL already submitted (ID: None, Date: ".toList ++ pyShowNat 7 ++ [')'] :=
  C10_remote_record_no_id c1search [] c1item 7 (similarUrlReason c1post) rfl rfl

/-! ## Claim C4 -/

theorem splitSep_ne_nil (sep : Char) (p : List Char) : splitSep sep p ≠ [] := by
  cases p with
  | nil => simp [splitSep]
  | cons c t =>
      unfold splitSep
      by_cases hc : c = sep
      · rw [if_pos hc]
        simp
      · rw [if_neg hc]
        cases splitSep sep t with
        | nil => simp
        | cons h r => simp

theorem splitSep_no_sep {sep : Char} {p : List Char} (h : sep ∉ p) :
    splitSep sep p = [p] := by
  induction p with
  | nil => rfl
  | cons c t ih =>
      unfold splitSep
      rw [if_neg (by rintro rfl; exact h (List.mem_cons_self _ _))]
      rw [ih (fun hm => h (List.mem_cons_of_mem _ hm))]

theorem splitSep_append {sep : Char} {p rest : List Char} (h : sep ∉ p) :
    splitSep sep (p ++ sep :: rest) = p :: splitSep sep rest := by
  induction p with
  | nil =>
      show splitSep sep (sep :: rest) = [] :: splitSep sep rest
      simp only [splitSep]
      simp
  | cons c t ih =>
      show splitSep sep (c :: (t ++ sep :: rest)) = (c :: t) :: splitSep sep rest
      simp only [splitSep]
      rw [if_neg (by rintro rfl; exact h (List.mem_cons_self _ _))]
      rw [ih (fun hm => h (List.mem_cons_of_mem _ hm))]

theorem splitSep_joinSep {sep : Char} :
    ∀ ps : List (List Char), ps ≠ [] → (∀ p ∈ ps, sep ∉ p) →
      splitSep sep (joinSep [sep] ps) = ps
  | [], hne, _ => absurd rfl hne
  | [p], _, h => by
      show splitSep sep p = [p]
      exact splitSep_no_sep (h p (List.mem_cons_self _ _))
  | p :: q :: r, _, h => by
      have hshape : joinSep [sep] (p :: q :: r) = p ++ sep :: joinSep [sep] (q :: r) := by
        show p ++ [sep] ++ joinSep [sep] (q :: r) = _
        rw [List.append_assoc]
        rfl
      rw [hshape, splitSep_append (h p (List.mem_cons_self _ _))]
      rw [splitSep_joinSep (q :: r) (by simp) (fun w hw => h w (List.mem_cons_of_mem _ hw))]

theorem joinSep_lower_fixed {sep : Char} (hsep : pyToLower sep = sep)
    (ps : List (List Char)) (h : ∀ p ∈ ps, pyLower p = p) :
    pyLower (joinSep [sep] ps) = joinSep [sep] ps := by
  apply pyLower_fixed_of_forall
  intro c hc
  rcases mem_joinSep hc with hs | ⟨p, hp, hcp⟩
  · rw [List.mem_singleton] at hs
    rw [hs]
    exact hsep
  · exact forall_pyToLower_of_fixed p (h p hp) c hcp

theorem not_mem_joinSep {sep x : Char} (hx : x ≠ sep) (ps : List (List Char))
    (h : ∀ p ∈ ps, x ∉ p) : x ∉ joinSep [sep] ps := by
  intro hm
  rcases mem_joinSep hm with hs | ⟨p, hp, hcp⟩
  · rw [List.mem_singleton] at hs
    exact hx hs
  · exact h p hp hcp

set_option maxHeartbeats 800000 in
/-- Evaluation of `WebsiteScraper._normalize_url` on a clean lowercase base
with an explicit query-parameter list: exactly the parameters matching the
tracking set are removed, and the survivors keep their relative order. -/
theorem scraperNormalizeUrl_query (base : List Char) (ps : List (List Char))
    (hbl : pyLower base = base) (hb1 : '#' ∉ base) (hb2 : '?' ∉ base)
    (hpl : ∀ p ∈ ps, pyLower p = p) (hph : ∀ p ∈ ps, '#' ∉ p ∧ '&' ∉ p)
    (hlast : (joinSep ['&'] ps).getLast? ≠ some '/') (hne : ps ≠ []) :
    scraperNormalizeUrl (base ++ '?' :: joinSep ['&'] ps) =
      (if (ps.filter (fun p => !isTrackingParam p)).isEmpty then base
       else base ++ '?' :: joinSep ['&'] (ps.filter (fun p => !isTrackingParam p))) := by
  have hJfix : pyLower (joinSep ['&'] ps) = joinSep ['&'] ps :=
    joinSep_lower_fixed (by decide) ps hpl
  have hufix : pyLower (base ++ '?' :: joinSep ['&'] ps) =
      base ++ '?' :: joinSep ['&'] ps := by
    rw [pyLower_append, pyLower_cons, hbl, hJfix]
    rfl
  have hulast : (base ++ '?' :: joinSep ['&'] ps).getLast? ≠ some '/' := by
    rw [List.getLast?_append]
    cases hJ : joinSep ['&'] ps with
    | nil => simp
    | cons j J' =>
        rw [List.getLast?_cons_cons]
        rw [hJ] at hlast
        cases hg : (j :: J').getLast? with
        | none =>
            rw [List.getLast?_eq_getLast _ (by simp)] at hg
            cases hg
        | some x =>
            rw [hg] at hlast
            simpa using hlast
  have hnohash : '#' ∉ base ++ '?' :: joinSep ['&'] ps := by
    intro hm
    rcases List.mem_append.mp hm with hmb | hmr
    · exact hb1 hmb
    · rcases List.mem_cons.mp hmr with hq | hmj
      · cases hq
      · exact not_mem_joinSep (by decide) ps (fun p hp => (hph p hp).1) hmj
  simp only [scraperNormalizeUrl]
  rw [rstripSlash_eq_self _ hulast, hufix]
  rw [takeWhile_ne_eq_self hnohash]
  rw [takeWhile_ne_append hb2, dropWhile_ne_append hb2]
  show (if ((splitSep '&' (pyLower (joinSep ['&'] ps))).filter
        (fun p => !isTrackingParam p)).isEmpty = true
      then pyLower base
      else pyLower (base ++ '?' :: joinSep ['&']
        ((splitSep '&' (pyLower (joinSep ['&'] ps))).filter (fun p => !isTrackingParam p)))) =
    (if (ps.filter (fun p => !isTrackingParam p)).isEmpty = true then base
     else base ++ '?' :: joinSep ['&'] (ps.filter (fun p => !isTrackingParam p)))
  rw [hJfix, splitSep_joinSep ps hne (fun p hp hm => (hph p hp).2 hm)]
  by_cases hkept : (ps.filter (fun p => !isTrackingParam p)).isEmpty = true
  · rw [if_pos hkept, if_pos hkept, hbl]
  · rw [if_neg hkept, if_neg hkept]

    rw [pyLower_append, pyLower_cons, hbl]
    have : pyLower (joinSep ['&'] (ps.filter (fun p => !isTrackingParam p))) =
        joinSep ['&'] (ps.filter (fun p => !isTrackingParam p)) :=
      joinSep_lower_fixed (by decide) _
        (fun p hp => hpl p (List.mem_filter.mp hp).1)
    rw [this]
    rfl

def c4fb : List Char := "https://example.com/a?fbclid=x&id=1".toList

def c4plain : List Char := "https://example.com/a?id=1".toList

/-- C4 counterexample: the deduplicator's `_normalize_url` does not remove
`fbclid` parameters — its key filter is
`startswith(("utm_", "fb_", "gclid", "ref_", "campaign"))` and `fbclid` does
not start with `fb_` — so adding an fbclid parameter changes its canonical
form, contradicting the claim for that canonicalizer. -/
theorem C4_counterexample :
    dedupNormalizeUrl c4fb ≠ dedupNormalizeUrl c4plain ∧
    dedupNormalizeUrl c4fb = c4fb :=
  ⟨by decide, by decide⟩

/-- C4 (amended): for the scraper's `_normalize_url`, inserting a query
parameter matching the tracking set (prefixes `utm_`, `fbclid`, `gclid`;
substrings `ref=`, `source=`) anywhere in the query does not change the
canonical form, and the canonical query is exactly the non-tracking
parameters in their original relative order; in particular the
`utm_source` and `fbclid` examples hold.  The deduplicator's
`_normalize_url` uses a different key filter (prefixes `utm_`, `fb_`,
`gclid`, `ref_`, `campaign`) and in particular keeps `fbclid` parameters. -/
theorem C4_tracking_param_removal (base t : List Char) (ps1 ps2 : List (List Char))
    (hbl : pyLower base = base) (hb1 : '#' ∉ base) (hb2 : '?' ∉ base)
    (hpl : ∀ p ∈ ps1 ++ t :: ps2, pyLower p = p)
    (hph : ∀ p ∈ ps1 ++ t :: ps2, '#' ∉ p ∧ '&' ∉ p)
    (hlast1 : (joinSep ['&'] (ps1 ++ t :: ps2)).getLast? ≠ some '/')
    (hlast2 : (joinSep ['&'] (ps1 ++ ps2)).getLast? ≠ some '/')
    (hne2 : ps1 ++ ps2 ≠ []) (htrack : isTrackingParam t = true) :
    (scraperNormalizeUrl (base ++ '?' :: joinSep ['&'] (ps1 ++ t :: ps2)) =
      scraperNormalizeUrl (base ++ '?' :: joinSep ['&'] (ps1 ++ ps2))) ∧
    (scraperNormalizeUrl (base ++ '?' :: joinSep ['&'] (ps1 ++ ps2)) =
      (if ((ps1 ++ ps2).filter (fun p => !isTrackingParam p)).isEmpty then base
       else base ++ '?' :: joinSep ['&'] ((ps1 ++ ps2).filter (fun p => !isTrackingParam p)))) ∧
    (scraperNormalizeUrl ("https://example.com/a?utm_source=x&id=1".toList) =
      scraperNormalizeUrl ("https://example.com/a?id=1".toList)) ∧
    (scraperNormalizeUrl c4fb = scraperNormalizeUrl c4plain) ∧
    (scraperNormalizeUrl ("https://example.com/p?a=1&utm_y=0&b=2".toList) =
      "https://example.com/p?a=1&b=2".toList) := by
  have hpl2 : ∀ p ∈ ps1 ++ ps2, pyLower p = p := by
    intro p hp
    rcases List.mem_append.mp hp with h | h
    · exact hpl p (List.mem_append_left _ h)
    · exact hpl p (List.mem_append_right _ (List.mem_cons_of_mem _ h))
  have hph2 : ∀ p ∈ ps1 ++ ps2, '#' ∉ p ∧ '&' ∉ p := by
    intro p hp
    rcases List.mem_append.mp hp with h | h
    · exact hph p (List.mem_append_left _ h)
    · exact hph p (List.mem_append_right _ (List.mem_cons_of_mem _ h))
  have hfilter : (ps1 ++ t :: ps2).filter (fun p => !isTrackingParam p) =
      (ps1 ++ ps2).filter (fun p => !isTrackingParam p) := by
    rw [List.filter_append, List.filter_append, List.filter_cons]
    rw [if_neg (by rw [htrack]; simp)]
  refine ⟨?_, ?_, by decide, by decide, by decide⟩
  · rw [scraperNormalizeUrl_query base (ps1 ++ t :: ps2) hbl hb1 hb2 hpl hph hlast1
      (by simp), scraperNormalizeUrl_query base (ps1 ++ ps2) hbl hb1 hb2 hpl2 hph2
      hlast2 hne2, hfilter]
  · exact scraperNormalizeUrl_query base (ps1 ++ ps2) hbl hb1 hb2 hpl2 hph2 hlast2 hne2

def c4base : List Char := "https://example.com/a".toList

def c4utm : List Char := "utm_source=x".toList

def c4id : List Char := "id=1".toList

theorem C4_tracking_param_removal_witness :
    (scraperNormalizeUrl (c4base ++ '?' :: joinSep ['&'] ([] ++ c4utm :: [c4id])) =
      scraperNormalizeUrl (c4base ++ '?' :: joinSep ['&'] ([] ++ [c4id]))) ∧
    (scraperNormalizeUrl (c4base ++ '?' :: joinSep ['&'] ([] ++ [c4id])) =
      (if (([] ++ [c4id]).filter (fun p => !isTrackingParam p)).isEmpty then c4base
       else c4base ++ '?' :: joinSep ['&'] (([] ++ [c4id]).filter (fun p => !isTrackingParam p)))) ∧
    (scraperNormalizeUrl ("https://example.com/a?utm_source=x&id=1".toList) =
      scraperNormalizeUrl ("https://example.com/a?id=1".toList)) ∧
    (scraperNormalizeUrl c4fb = scraperNormalizeUrl c4plain) ∧
    (scraperNormalizeUrl ("https://example.com/p?a=1&utm_y=0&b=2".toList) =
      "https://example.com/p?a=1&b=2".toList) :=
  C4_tracking_param_removal c4base c4utm [] [c4id] (by decide) (by decide) (by decide)
    (by decide) (by decide) (by decide) (by decide) (by decide) (by decide)
